import Mathlib

/-!
Verification of the PyOpenGL modeling/maze repository core against its
natural-language specification.  The Python source is shallowly embedded:
machine floats become exact rationals (all concrete values exercised by the
programs in question are dyadic, so Python float arithmetic on them is exact),
Python `int()` truncation and `%` are modelled explicitly, list-of-list grids
become integer-indexed functions with pointwise update, and the stateful
randomized DFS of `maze_generator.Maze.generate` becomes a fuel-indexed loop
parameterized by an abstract random stream `s : ℕ → ℕ` (`random.randint(0,k)`
is read as `s i % (k+1)` and `random.choice(xs)` as `xs[s i % len xs]`).
-/

namespace ModelingSW

/-- Rational 3D point, standing for a Python float triple. -/
abbrev V3 := ℚ × ℚ × ℚ

/-- Python max on two floats (the computable Rat.floor-style counterpart of
the lattice max, used so that concrete instances reduce in the kernel). -/
def pymax (a b : ℚ) : ℚ := if a ≤ b then b else a

/-- Python min on two floats. -/
def pymin (a b : ℚ) : ℚ := if b ≤ a then b else a

theorem pymax_eq (a b : ℚ) : pymax a b = max a b := by
  unfold pymax
  rcases le_or_lt a b with h | h
  · rw [if_pos h, max_eq_right h]
  · rw [if_neg (not_le.mpr h), max_eq_left h.le]

theorem pymin_eq (a b : ℚ) : pymin a b = min a b := by
  unfold pymin
  rcases le_or_lt b a with h | h
  · rw [if_pos h, min_eq_right h]
  · rw [if_neg (not_le.mpr h), min_eq_left h.le]

/-- Computable floor agrees with the mathematical floor. -/
theorem ratFloor_eq (q : ℚ) : q.floor = ⌊q⌋ :=
  (Rat.floor_def' q).trans Rat.floor_def.symm

/-- Python integer conversion of a float: truncation toward zero. -/
def pyInt (q : ℚ) : ℤ := if 0 ≤ q then q.floor else -((-q).floor)

/-- Python float modulo: the result has the sign of the divisor
(for a positive divisor this is floor-modulo). -/
def pymod (a b : ℚ) : ℚ := a - b * (a / b).floor

theorem pyInt_eq_floor {q : ℚ} (h : 0 ≤ q) : pyInt q = ⌊q⌋ := by
  simp [pyInt, h, ratFloor_eq]

theorem pymod_eq (a b : ℚ) : pymod a b = a - b * ⌊a / b⌋ := by
  simp [pymod, ratFloor_eq]

/-- Occupancy grid of the maze, indexed as grid row col, mirroring
the Python nested list indexed as grid[y][x].  Out-of-range reads never
occur in the embedded code paths (the source guards all accesses). -/
def Grid := ℤ → ℤ → ℕ

/-- Pointwise update modelling the assignment grid[y][x] = v. -/
def setCell (g : Grid) (y x : ℤ) (v : ℕ) : Grid :=
  fun j i => if j = y ∧ i = x then v else g j i

/-- State of maze_generator.Maze: adjusted dimensions, clamped wall styling
parameters, and the occupancy grid. -/
structure Maze where
  width : ℕ
  height : ℕ
  wall_thickness : ℚ
  wall_height : ℚ
  grid : Grid

/-- Embeds Maze.__init__: force both dimensions odd by incrementing even
inputs, clamp wall_thickness into [0.1, 1.0], clamp wall_height to at least
0.1, and fill the whole grid with walls (value 1). -/
def Maze.init (width height : ℕ) (wall_thickness : ℚ := 1) (wall_height : ℚ := 1) : Maze where
  width := if width % 2 ≠ 0 then width else width + 1
  height := if height % 2 ≠ 0 then height else height + 1
  wall_thickness := pymax (1/10) (pymin 1 wall_thickness)
  wall_height := pymax (1/10) wall_height
  grid := fun _ _ => 1

/-- Neighbor offsets of Maze._get_unvisited_neighbors, in source order. -/
def nbOffsets : List (ℤ × ℤ) := [(0, -2), (0, 2), (-2, 0), (2, 0)]

/-- Embeds Maze._get_unvisited_neighbors: the still-wall cells two steps away
in the four axis directions, strictly inside the border. -/
def getNbs (W H : ℕ) (g : Grid) (x y : ℤ) : List (ℤ × ℤ) :=
  nbOffsets.filterMap (fun d =>
    let nx := x + d.1
    let ny := y + d.2
    if 0 < nx ∧ nx < (W : ℤ) - 1 ∧ 0 < ny ∧ ny < (H : ℤ) - 1 ∧ g ny nx = 1 then
      some (nx, ny)
    else none)

/-- Embeds the while-stack loop of Maze.generate.  Fuel only serves
termination; it is chosen large enough below that the loop always drains its
stack (dfsLoop_closure).  Argument i indexes the random stream. -/
def dfsLoop (W H : ℕ) (s : ℕ → ℕ) : ℕ → Grid → List (ℤ × ℤ) → ℕ → Grid
  | 0, g, _, _ => g
  | _ + 1, g, [], _ => g
  | fuel + 1, g, (x, y) :: rest, i =>
    let nbs := getNbs W H g x y
    if h : nbs = [] then
      dfsLoop W H s fuel g rest i
    else
      let n := nbs.get ⟨s i % nbs.length, Nat.mod_lt _ (List.length_pos.mpr h)⟩
      let g1 := setCell g ((y + n.2) / 2) ((x + n.1) / 2) 0
      let g2 := setCell g1 n.2 n.1 0
      dfsLoop W H s fuel g2 (n :: (x, y) :: rest) (i + 1)

/-- Embeds the exit-carving for-loop of Maze._create_entry_exit: scan
column n, n-1, ..., 1 of row height-2 for a passage and open the bottom
border below the first one found; if the scan falls through, open the
bottom-right interior column as a fallback. -/
def exitScan (W H : ℕ) (g : Grid) : ℕ → Grid
  | 0 => setCell g ((H : ℤ) - 1) ((W : ℤ) - 2) 0
  | n + 1 =>
    if g ((H : ℤ) - 2) ((n : ℤ) + 1) = 0 then
      setCell g ((H : ℤ) - 1) ((n : ℤ) + 1) 0
    else
      exitScan W H g n

/-- Embeds Maze._create_entry_exit: carve the entrance at (row 0, col 1),
then run the exit scan from column width-2 downward. -/
def createEntryExit (W H : ℕ) (g : Grid) : Grid :=
  exitScan W H (setCell g 0 1 0) (W - 2)

/-- Embeds Maze.generate: pick the random start cell (odd coordinates),
carve it, run the DFS loop, then carve entry and exit.  The fuel
2*width*height+1 dominates the loop measure, so the stack always drains. -/
def Maze.generate (m : Maze) (s : ℕ → ℕ) : Maze :=
  let start_x : ℤ := ((s 0 % ((m.width - 3) / 2 + 1)) * 2 + 1 : ℕ)
  let start_y : ℤ := ((s 1 % ((m.height - 3) / 2 + 1)) * 2 + 1 : ℕ)
  let g0 := setCell m.grid start_y start_x 0
  let g1 := dfsLoop m.width m.height s (2 * m.width * m.height + 1) g0 [(start_x, start_y)] 2
  { m with grid := createEntryExit m.width m.height g1 }

/-- Claim C2: for every requested width and height, the constructed grid has
both dimensions odd, and each actual dimension equals the requested value
when it is odd, or the requested value plus one when it is even.  Generation
never changes the dimensions, so this is a property of Maze.init. -/
theorem maze_dimensions_odd (w h : ℕ) (wt wh : ℚ) :
    (Maze.init w h wt wh).width % 2 = 1 ∧
    (Maze.init w h wt wh).height % 2 = 1 ∧
    (Maze.init w h wt wh).width = (if w % 2 = 1 then w else w + 1) ∧
    (Maze.init w h wt wh).height = (if h % 2 = 1 then h else h + 1) ∧
    ((Maze.init w h wt wh).generate (fun _ => 0)).width = (Maze.init w h wt wh).width ∧
    ((Maze.init w h wt wh).generate (fun _ => 0)).height = (Maze.init w h wt wh).height := by
  have hw := Nat.mod_two_eq_zero_or_one w
  have hh := Nat.mod_two_eq_zero_or_one h
  refine ⟨?_, ?_, ?_, ?_, rfl, rfl⟩ <;>
    rcases hw with hw | hw <;> rcases hh with hh | hh <;>
      simp [Maze.init, hw, hh, Nat.add_mod]

/-- Mesh accumulator of Maze.export_to_dat: vertex list, face list (each
face a 4-element index list, as serialized), and the running vertex_count. -/
structure MazeMesh where
  vertices : List V3
  faces : List (List ℕ)
  vertex_count : ℕ

/-- Embeds the nested add_box helper of Maze.export_to_dat: eight corner
vertices (bottom ring then top ring) and six quad faces over them. -/
def addBox (height : ℚ) (st : MazeMesh) (x0 x1 z0 z1 : ℚ) : MazeMesh :=
  let base := st.vertex_count
  { vertices := st.vertices ++
      [(x0, 0, z0), (x1, 0, z0), (x1, 0, z1), (x0, 0, z1),
       (x0, height, z0), (x1, height, z0), (x1, height, z1), (x0, height, z1)]
    faces := st.faces ++
      [[base, base + 3, base + 2, base + 1], [base + 4, base + 5, base + 6, base + 7],
       [base, base + 1, base + 5, base + 4], [base + 1, base + 2, base + 6, base + 5],
       [base + 2, base + 3, base + 7, base + 6], [base + 3, base, base + 4, base + 7]]
    vertex_count := st.vertex_count + 8 }

/-- Embeds Maze._is_wall: in-range wall test, False outside the grid. -/
def isWall (W H : ℕ) (g : Grid) (x y : ℤ) : Bool :=
  if 0 ≤ x ∧ x < (W : ℤ) ∧ 0 ≤ y ∧ y < (H : ℤ) then decide (g y x = 1) else false

/-- Embeds one iteration of the cell loop of Maze.export_to_dat: a wall cell
emits one merged box on a straight run, or a center box plus one arm per
wall-adjacent direction at corners, junctions and isolated cells. -/
def cellBoxes (W H : ℕ) (g : Grid) (thickness height : ℚ) (y x : ℕ) (st : MazeMesh) :
    MazeMesh :=
  if g (y : ℤ) (x : ℤ) = 1 then
    let scale : ℚ := 1
    let inset := (scale - thickness) / 2
    let offset_x : ℚ := -((W : ℚ) * scale) / 2
    let offset_z : ℚ := -((H : ℚ) * scale) / 2
    let bx := (x : ℚ) * scale + offset_x
    let bz := (y : ℚ) * scale + offset_z
    let cx0 := bx + inset
    let cx1 := bx + inset + thickness
    let cz0 := bz + inset
    let cz1 := bz + inset + thickness
    let left := isWall W H g ((x : ℤ) - 1) (y : ℤ)
    let right := isWall W H g ((x : ℤ) + 1) (y : ℤ)
    let up := isWall W H g (x : ℤ) ((y : ℤ) - 1)
    let down := isWall W H g (x : ℤ) ((y : ℤ) + 1)
    if (left || right) && !up && !down then
      addBox height st (if left then bx else cx0) (if right then bx + scale else cx1) cz0 cz1
    else if (up || down) && !left && !right then
      addBox height st cx0 cx1 (if up then bz else cz0) (if down then bz + scale else cz1)
    else
      let st1 := addBox height st cx0 cx1 cz0 cz1
      let st2 := if left then addBox height st1 bx cx0 cz0 cz1 else st1
      let st3 := if right then addBox height st2 cx1 (bx + scale) cz0 cz1 else st2
      let st4 := if up then addBox height st3 cx0 cx1 bz cz0 else st3
      if down then addBox height st4 cx0 cx1 cz1 (bz + scale) else st4
  else st

/-- Embeds the geometry-producing part of Maze.export_to_dat: resolve the
optional styling arguments against the stored ones, clamp them, and sweep the
grid row-major emitting boxes.  The textual serialization is omitted: every
coordinate produced here is a dyadic rational, written exactly by the
6-decimal fixed-point format and re-read exactly by load_maze. -/
def exportGeometry (m : Maze) (wall_thickness wall_height : Option ℚ) : MazeMesh :=
  let thickness0 := wall_thickness.getD m.wall_thickness
  let height0 := wall_height.getD m.wall_height
  let thickness := pymax (1/10) (pymin 1 thickness0)
  let height := pymax (1/10) height0
  (List.range m.height).foldl (fun st y =>
    (List.range m.width).foldl (fun st x =>
      cellBoxes m.width m.height m.grid thickness height y x st) st)
    { vertices := [], faces := [], vertex_count := 0 }

/-- Minimum of a list of rationals, first element as seed (Python min over a
nonempty comprehension; the embedded call sites are all nonempty). -/
def listMin : List ℚ → ℚ
  | [] => 0
  | q :: qs => qs.foldl pymin q

/-- Maximum of a list of rationals, first element as seed. -/
def listMax : List ℚ → ℚ
  | [] => 0
  | q :: qs => qs.foldl pymax q

/-- Collision grid rebuilt by miro_opengl._build_collision_grid in its
fallback (no raw-grid section in the file): all-passage grid with wall marks
derived from the faces. -/
structure CollisionGrid where
  grid : Grid
  width : ℕ
  height : ℕ

/-- Cell targeted by one iteration of the face loop of _build_collision_grid:
gather the in-range vertices of the face and, when the face reaches above
y = 0.6, return the (row, col) under its centroid. -/
def markTarget (vertices : List V3) (min_x min_z : ℚ) (face : List ℕ) :
    Option (ℤ × ℤ) :=
  let verts := face.filterMap (fun idx => vertices.get? idx)
  match verts with
  | [] => none
  | v :: vs =>
    let max_y := (vs.map (fun p => p.2.1)).foldl pymax v.2.1
    if 3/5 < max_y then
      let n : ℚ := ((v :: vs).length : ℚ)
      let avg_x := ((v :: vs).map (fun p => p.1)).sum / n
      let avg_z := ((v :: vs).map (fun p => p.2.2)).sum / n
      some (pyInt ((avg_z - min_z) / 1), pyInt ((avg_x - min_x) / 1))
    else none

/-- Embeds one iteration of the face loop of _build_collision_grid: mark the
targeted cell as a wall when it lies inside the rebuilt grid. -/
def markFace (vertices : List V3) (min_x min_z : ℚ) (gw gh : ℕ) (g : Grid)
    (face : List ℕ) : Grid :=
  match markTarget vertices min_x min_z face with
  | none => g
  | some (gz, gx) =>
    if 0 ≤ gz ∧ gz < (gh : ℤ) ∧ 0 ≤ gx ∧ gx < (gw : ℤ) then setCell g gz gx 1 else g

/-- Embeds _calculate_maze_bounds followed by the fallback branch of
_build_collision_grid (the branch taken for a v6 file, which carries no
original grid): bounds from the vertex list, a grid of
int(extent)+2 cells per axis initialized to passage, then wall marks from
every face whose maximum y exceeds 0.6. -/
def buildCollisionGrid (vertices : List V3) (faces : List (List ℕ)) : CollisionGrid :=
  let min_x := listMin (vertices.map (fun p => p.1))
  let max_x := listMax (vertices.map (fun p => p.1))
  let min_z := listMin (vertices.map (fun p => p.2.2))
  let max_z := listMax (vertices.map (fun p => p.2.2))
  let gw := (pyInt ((max_x - min_x) / 1)).toNat + 2
  let gh := (pyInt ((max_z - min_z) / 1)).toNat + 2
  { grid := faces.foldl (markFace vertices min_x min_z gw gh) (fun _ _ => 0)
    width := gw
    height := gh }

/-- Maze generated by Maze(5,5).generate() under the random stream that
always draws 0: start cell (1,1) and first listed neighbor at every step. -/
def mazeC1 : Maze := (Maze.init 5 5).generate (fun _ => 0)

/-- Geometry exported from that maze by export_to_dat with default styling. -/
def meshC1 : MazeMesh := exportGeometry mazeC1 none none

/-- Collision grid rebuilt from that geometry by load_maze plus
_build_collision_grid (fallback branch, as a v6 file has no raw grid). -/
def reconC1 : CollisionGrid := buildCollisionGrid meshC1.vertices meshC1.faces

/-- Vertex chunk 0 of the exported C1 mesh. -/
def vertsC1x0 : List V3 :=
  [(-5/2, 0, -5/2), (-3/2, 0, -5/2), (-3/2, 0, -3/2), (-5/2, 0, -3/2),
   (-5/2, 1, -5/2), (-3/2, 1, -5/2), (-3/2, 1, -3/2), (-5/2, 1, -3/2),
   (-1/2, 0, -5/2), (1/2, 0, -5/2), (1/2, 0, -3/2), (-1/2, 0, -3/2),
   (-1/2, 1, -5/2), (1/2, 1, -5/2), (1/2, 1, -3/2), (-1/2, 1, -3/2),
   (1/2, 0, -5/2), (1/2, 0, -5/2), (1/2, 0, -3/2), (1/2, 0, -3/2),
   (1/2, 1, -5/2), (1/2, 1, -5/2), (1/2, 1, -3/2), (1/2, 1, -3/2),
   (-1/2, 0, -3/2), (1/2, 0, -3/2), (1/2, 0, -3/2), (-1/2, 0, -3/2),
   (-1/2, 1, -3/2), (1/2, 1, -3/2), (1/2, 1, -3/2), (-1/2, 1, -3/2),
   (1/2, 0, -5/2), (3/2, 0, -5/2), (3/2, 0, -3/2), (1/2, 0, -3/2),
   (1/2, 1, -5/2), (3/2, 1, -5/2), (3/2, 1, -3/2), (1/2, 1, -3/2),
   (3/2, 0, -5/2), (5/2, 0, -5/2), (5/2, 0, -3/2), (3/2, 0, -3/2)]

/-- Vertex chunk 1 of the exported C1 mesh. -/
def vertsC1x1 : List V3 :=
  [(3/2, 1, -5/2), (5/2, 1, -5/2), (5/2, 1, -3/2), (3/2, 1, -3/2),
   (3/2, 0, -5/2), (3/2, 0, -5/2), (3/2, 0, -3/2), (3/2, 0, -3/2),
   (3/2, 1, -5/2), (3/2, 1, -5/2), (3/2, 1, -3/2), (3/2, 1, -3/2),
   (3/2, 0, -3/2), (5/2, 0, -3/2), (5/2, 0, -3/2), (3/2, 0, -3/2),
   (3/2, 1, -3/2), (5/2, 1, -3/2), (5/2, 1, -3/2), (3/2, 1, -3/2),
   (-5/2, 0, -3/2), (-3/2, 0, -3/2), (-3/2, 0, -1/2), (-5/2, 0, -1/2),
   (-5/2, 1, -3/2), (-3/2, 1, -3/2), (-3/2, 1, -1/2), (-5/2, 1, -1/2),
   (-1/2, 0, -3/2), (1/2, 0, -3/2), (1/2, 0, -1/2), (-1/2, 0, -1/2),
   (-1/2, 1, -3/2), (1/2, 1, -3/2), (1/2, 1, -1/2), (-1/2, 1, -1/2),
   (3/2, 0, -3/2), (5/2, 0, -3/2), (5/2, 0, -1/2), (3/2, 0, -1/2),
   (3/2, 1, -3/2), (5/2, 1, -3/2), (5/2, 1, -1/2), (3/2, 1, -1/2)]

/-- Vertex chunk 2 of the exported C1 mesh. -/
def vertsC1x2 : List V3 :=
  [(-5/2, 0, -1/2), (-3/2, 0, -1/2), (-3/2, 0, 1/2), (-5/2, 0, 1/2),
   (-5/2, 1, -1/2), (-3/2, 1, -1/2), (-3/2, 1, 1/2), (-5/2, 1, 1/2),
   (-1/2, 0, -1/2), (1/2, 0, -1/2), (1/2, 0, 1/2), (-1/2, 0, 1/2),
   (-1/2, 1, -1/2), (1/2, 1, -1/2), (1/2, 1, 1/2), (-1/2, 1, 1/2),
   (3/2, 0, -1/2), (5/2, 0, -1/2), (5/2, 0, 1/2), (3/2, 0, 1/2),
   (3/2, 1, -1/2), (5/2, 1, -1/2), (5/2, 1, 1/2), (3/2, 1, 1/2),
   (-5/2, 0, 1/2), (-3/2, 0, 1/2), (-3/2, 0, 3/2), (-5/2, 0, 3/2),
   (-5/2, 1, 1/2), (-3/2, 1, 1/2), (-3/2, 1, 3/2), (-5/2, 1, 3/2),
   (3/2, 0, 1/2), (5/2, 0, 1/2), (5/2, 0, 3/2), (3/2, 0, 3/2),
   (3/2, 1, 1/2), (5/2, 1, 1/2), (5/2, 1, 3/2), (3/2, 1, 3/2),
   (-5/2, 0, 3/2), (-3/2, 0, 3/2), (-3/2, 0, 5/2), (-5/2, 0, 5/2)]

/-- Vertex chunk 3 of the exported C1 mesh. -/
def vertsC1x3 : List V3 :=
  [(-5/2, 1, 3/2), (-3/2, 1, 3/2), (-3/2, 1, 5/2), (-5/2, 1, 5/2),
   (-3/2, 0, 3/2), (-3/2, 0, 3/2), (-3/2, 0, 5/2), (-3/2, 0, 5/2),
   (-3/2, 1, 3/2), (-3/2, 1, 3/2), (-3/2, 1, 5/2), (-3/2, 1, 5/2),
   (-5/2, 0, 3/2), (-3/2, 0, 3/2), (-3/2, 0, 3/2), (-5/2, 0, 3/2),
   (-5/2, 1, 3/2), (-3/2, 1, 3/2), (-3/2, 1, 3/2), (-5/2, 1, 3/2),
   (-3/2, 0, 3/2), (-1/2, 0, 3/2), (-1/2, 0, 5/2), (-3/2, 0, 5/2),
   (-3/2, 1, 3/2), (-1/2, 1, 3/2), (-1/2, 1, 5/2), (-3/2, 1, 5/2),
   (-1/2, 0, 3/2), (1/2, 0, 3/2), (1/2, 0, 5/2), (-1/2, 0, 5/2),
   (-1/2, 1, 3/2), (1/2, 1, 3/2), (1/2, 1, 5/2), (-1/2, 1, 5/2),
   (3/2, 0, 3/2), (5/2, 0, 3/2), (5/2, 0, 5/2), (3/2, 0, 5/2),
   (3/2, 1, 3/2), (5/2, 1, 3/2), (5/2, 1, 5/2), (3/2, 1, 5/2)]

/-- Vertex list of meshC1, written out (checked against the embedding below). -/
def vertsC1 : List V3 :=
  vertsC1x0 ++ vertsC1x1 ++ vertsC1x2 ++ vertsC1x3

/-- Face chunk 0 of the exported C1 mesh. -/
def facesC1x0 : List (List Nat) :=
  [[0, 3, 2, 1], [4, 5, 6, 7], [0, 1, 5, 4], [1, 2, 6, 5], [2, 3, 7, 6], [3, 0, 4, 7],
   [8, 11, 10, 9], [12, 13, 14, 15], [8, 9, 13, 12], [9, 10, 14, 13], [10, 11, 15, 14], [11, 8, 12, 15],
   [16, 19, 18, 17], [20, 21, 22, 23], [16, 17, 21, 20], [17, 18, 22, 21], [18, 19, 23, 22], [19, 16, 20, 23],
   [24, 27, 26, 25], [28, 29, 30, 31], [24, 25, 29, 28], [25, 26, 30, 29], [26, 27, 31, 30], [27, 24, 28, 31],
   [32, 35, 34, 33], [36, 37, 38, 39], [32, 33, 37, 36], [33, 34, 38, 37], [34, 35, 39, 38], [35, 32, 36, 39],
   [40, 43, 42, 41], [44, 45, 46, 47], [40, 41, 45, 44]]

/-- Face chunk 1 of the exported C1 mesh. -/
def facesC1x1 : List (List Nat) :=
  [[41, 42, 46, 45], [42, 43, 47, 46], [43, 40, 44, 47], [48, 51, 50, 49], [52, 53, 54, 55], [48, 49, 53, 52],
   [49, 50, 54, 53], [50, 51, 55, 54], [51, 48, 52, 55], [56, 59, 58, 57], [60, 61, 62, 63], [56, 57, 61, 60],
   [57, 58, 62, 61], [58, 59, 63, 62], [59, 56, 60, 63], [64, 67, 66, 65], [68, 69, 70, 71], [64, 65, 69, 68],
   [65, 66, 70, 69], [66, 67, 71, 70], [67, 64, 68, 71], [72, 75, 74, 73], [76, 77, 78, 79], [72, 73, 77, 76],
   [73, 74, 78, 77], [74, 75, 79, 78], [75, 72, 76, 79], [80, 83, 82, 81], [84, 85, 86, 87], [80, 81, 85, 84],
   [81, 82, 86, 85], [82, 83, 87, 86], [83, 80, 84, 87]]

/-- Face chunk 2 of the exported C1 mesh. -/
def facesC1x2 : List (List Nat) :=
  [[88, 91, 90, 89], [92, 93, 94, 95], [88, 89, 93, 92], [89, 90, 94, 93], [90, 91, 95, 94], [91, 88, 92, 95],
   [96, 99, 98, 97], [100, 101, 102, 103], [96, 97, 101, 100], [97, 98, 102, 101], [98, 99, 103, 102], [99, 96, 100, 103],
   [104, 107, 106, 105], [108, 109, 110, 111], [104, 105, 109, 108], [105, 106, 110, 109], [106, 107, 111, 110], [107, 104, 108, 111],
   [112, 115, 114, 113], [116, 117, 118, 119], [112, 113, 117, 116], [113, 114, 118, 117], [114, 115, 119, 118], [115, 112, 116, 119],
   [120, 123, 122, 121], [124, 125, 126, 127], [120, 121, 125, 124], [121, 122, 126, 125], [122, 123, 127, 126], [123, 120, 124, 127],
   [128, 131, 130, 129], [132, 133, 134, 135], [128, 129, 133, 132]]

/-- Face chunk 3 of the exported C1 mesh. -/
def facesC1x3 : List (List Nat) :=
  [[129, 130, 134, 133], [130, 131, 135, 134], [131, 128, 132, 135], [136, 139, 138, 137], [140, 141, 142, 143], [136, 137, 141, 140],
   [137, 138, 142, 141], [138, 139, 143, 142], [139, 136, 140, 143], [144, 147, 146, 145], [148, 149, 150, 151], [144, 145, 149, 148],
   [145, 146, 150, 149], [146, 147, 151, 150], [147, 144, 148, 151], [152, 155, 154, 153], [156, 157, 158, 159], [152, 153, 157, 156],
   [153, 154, 158, 157], [154, 155, 159, 158], [155, 152, 156, 159], [160, 163, 162, 161], [164, 165, 166, 167], [160, 161, 165, 164],
   [161, 162, 166, 165], [162, 163, 167, 166], [163, 160, 164, 167], [168, 171, 170, 169], [172, 173, 174, 175], [168, 169, 173, 172],
   [169, 170, 174, 173], [170, 171, 175, 174], [171, 168, 172, 175]]

/-- Face list of meshC1, written out (checked against the embedding below). -/
def facesC1 : List (List Nat) :=
  facesC1x0 ++ facesC1x1 ++ facesC1x2 ++ facesC1x3

attribute [local semireducible] Rat.mul Rat.add Rat.sub Rat.inv

theorem setCell_same (g : Grid) (y x : ℤ) (v : ℕ) : setCell g y x v y x = v := by
  simp [setCell]

theorem markFace_mono (V : List V3) (mx mz : ℚ) (gw gh : ℕ) (g : Grid) (f : List ℕ)
    (y x : ℤ) (h : g y x = 1) : markFace V mx mz gw gh g f y x = 1 := by
  unfold markFace
  cases ht : markTarget V mx mz f with
  | none => exact h
  | some c =>
    obtain ⟨gz, gx⟩ := c
    simp only
    split
    · unfold setCell
      split
      · rfl
      · exact h
    · exact h

theorem foldMark_mono (V : List V3) (mx mz : ℚ) (gw gh : ℕ) (fs : List (List ℕ))
    (g : Grid) (y x : ℤ) (h : g y x = 1) :
    (fs.foldl (markFace V mx mz gw gh) g) y x = 1 := by
  induction fs generalizing g with
  | nil => exact h
  | cons f fs ih => exact ih _ (markFace_mono _ _ _ _ _ _ _ _ _ h)

theorem foldMark_of_mem (V : List V3) (mx mz : ℚ) (gw gh : ℕ) :
    ∀ (fs : List (List ℕ)) (g : Grid) (f : List ℕ), f ∈ fs → ∀ y x : ℤ,
      markTarget V mx mz f = some (y, x) →
      (0 ≤ y ∧ y < (gh : ℤ) ∧ 0 ≤ x ∧ x < (gw : ℤ)) →
      (fs.foldl (markFace V mx mz gw gh) g) y x = 1 := by
  intro fs
  induction fs with
  | nil => intro g f hf; cases hf
  | cons a as ih =>
    intro g f hf y x ht hb
    rw [List.foldl_cons]
    rcases List.mem_cons.mp hf with rfl | hmem
    · apply foldMark_mono
      unfold markFace
      simp only [ht]
      rw [if_pos hb]
      exact setCell_same _ _ _ _
    · exact ih (markFace V mx mz gw gh g a) f hmem y x ht hb

theorem foldl_pymin_eq (l : List ℚ) : ∀ a q : ℚ, (q = a ∨ q ∈ l) → q ≤ a →
    (∀ y ∈ l, q ≤ y) → l.foldl pymin a = q := by
  induction l with
  | nil =>
    intro a q hm _ _
    rcases hm with rfl | h
    · rfl
    · cases h
  | cons b l ih =>
    intro a q hm ha hl
    have hb : q ≤ b := hl b (List.mem_cons_self b l)
    have hq : q = pymin a b ∨ q ∈ l := by
      rcases hm with rfl | hm
      · left; rw [pymin_eq, min_eq_left hb]
      · rcases List.mem_cons.mp hm with rfl | hm
        · left; rw [pymin_eq, min_eq_right ha]
        · right; exact hm
    refine ih (pymin a b) q hq ?_ (fun y hy => hl y (List.mem_cons_of_mem _ hy))
    rw [pymin_eq]
    exact le_min ha hb

theorem foldl_pymax_eq (l : List ℚ) : ∀ a q : ℚ, (q = a ∨ q ∈ l) → a ≤ q →
    (∀ y ∈ l, y ≤ q) → l.foldl pymax a = q := by
  induction l with
  | nil =>
    intro a q hm _ _
    rcases hm with rfl | h
    · rfl
    · cases h
  | cons b l ih =>
    intro a q hm ha hl
    have hb : b ≤ q := hl b (List.mem_cons_self b l)
    have hq : q = pymax a b ∨ q ∈ l := by
      rcases hm with rfl | hm
      · left; rw [pymax_eq, max_eq_left hb]
      · rcases List.mem_cons.mp hm with rfl | hm
        · left; rw [pymax_eq, max_eq_right ha]
        · right; exact hm
    refine ih (pymax a b) q hq ?_ (fun y hy => hl y (List.mem_cons_of_mem _ hy))
    rw [pymax_eq]
    exact max_le ha hb

theorem listMin_eq_of (l : List ℚ) (q : ℚ) (hm : q ∈ l) (hb : ∀ y ∈ l, q ≤ y) :
    listMin l = q := by
  cases l with
  | nil => cases hm
  | cons a l =>
    unfold listMin
    refine foldl_pymin_eq l a q ?_ (hb a (List.mem_cons_self a l))
      (fun y hy => hb y (List.mem_cons_of_mem _ hy))
    rcases List.mem_cons.mp hm with rfl | h
    · left; rfl
    · right; exact h

theorem listMax_eq_of (l : List ℚ) (q : ℚ) (hm : q ∈ l) (hb : ∀ y ∈ l, y ≤ q) :
    listMax l = q := by
  cases l with
  | nil => cases hm
  | cons a l =>
    unfold listMax
    refine foldl_pymax_eq l a q ?_ (hb a (List.mem_cons_self a l))
      (fun y hy => hb y (List.mem_cons_of_mem _ hy))
    rcases List.mem_cons.mp hm with rfl | h
    · left; rfl
    · right; exact h

set_option maxRecDepth 8000 in
set_option maxHeartbeats 2000000 in
theorem meshC1_vertices : meshC1.vertices = vertsC1 := by decide

set_option maxRecDepth 8000 in
set_option maxHeartbeats 2000000 in
theorem meshC1_faces : meshC1.faces = facesC1 := by decide

set_option maxRecDepth 8000 in
set_option maxHeartbeats 2000000 in
theorem vertsC1_minx : listMin (vertsC1.map (fun p => p.1)) = -5/2 :=
  listMin_eq_of _ _ (by decide) (by decide)

set_option maxRecDepth 8000 in
set_option maxHeartbeats 2000000 in
theorem vertsC1_maxx : listMax (vertsC1.map (fun p => p.1)) = 5/2 :=
  listMax_eq_of _ _ (by decide) (by decide)

set_option maxRecDepth 8000 in
set_option maxHeartbeats 2000000 in
theorem vertsC1_minz : listMin (vertsC1.map (fun p => p.2.2)) = -5/2 :=
  listMin_eq_of _ _ (by decide) (by decide)

set_option maxRecDepth 8000 in
set_option maxHeartbeats 2000000 in
theorem vertsC1_maxz : listMax (vertsC1.map (fun p => p.2.2)) = 5/2 :=
  listMax_eq_of _ _ (by decide) (by decide)

theorem reconC1_eval :
    reconC1 = ⟨facesC1.foldl (markFace vertsC1 (-5/2) (-5/2) 7 7) (fun _ _ => 0), 7, 7⟩ := by
  unfold reconC1 buildCollisionGrid
  simp only [meshC1_vertices, meshC1_faces, vertsC1_minx, vertsC1_maxx, vertsC1_minz,
    vertsC1_maxz]
  norm_num
  have h5 : (pyInt 5).toNat + 2 = 7 := by decide
  rw [h5]
  exact ⟨rfl, rfl⟩

set_option maxRecDepth 8000 in
set_option maxHeartbeats 2000000 in
/-- Claim C1 (counterexample): for the maze produced by Maze(5,5).generate()
(modelled random stream drawing 0 throughout), exporting with export_to_dat
and importing with load_maze does NOT reproduce the wall/passage pattern: the
rebuilt occupancy grid is 7x7 rather than 5x5, and the entrance cell
(row 0, col 1), a passage before export, is rebuilt as a wall, because a tall
side face of the adjacent border wall box has its centroid on the boundary of
that cell. -/
theorem c1_roundtrip_counterexample :
    mazeC1.grid 0 1 = 0 ∧ reconC1.grid 0 1 = 1 ∧ reconC1.width = 7 ∧ mazeC1.width = 5 ∧
    ¬ (∀ y x : ℤ, 0 ≤ y → y < 5 → 0 ≤ x → x < 5 → reconC1.grid y x = mazeC1.grid y x) := by
  have h0 : mazeC1.grid 0 1 = 0 := by decide
  have h1 : reconC1.grid 0 1 = 1 := by
    rw [reconC1_eval]
    exact foldMark_of_mem vertsC1 (-5/2) (-5/2) 7 7 facesC1 (fun _ _ => 0) [1, 2, 6, 5]
      (by decide) 0 1 (by decide) (by decide)
  refine ⟨h0, h1, by rw [reconC1_eval], by decide, fun hall => ?_⟩
  have h := hall 0 1 (by decide) (by decide) (by decide) (by decide)
  rw [h0, h1] at h
  exact absurd h (by decide)

set_option maxRecDepth 8000 in
set_option maxHeartbeats 4000000 in
/-- Claim C1 (amended): for the maze produced by Maze(5,5).generate()
(modelled random stream drawing 0 throughout), the export/import round trip
yields an occupancy grid that still marks every pre-export wall cell as a
wall, but the pattern is not identical: the entrance cell (row 0, col 1) is a
passage before export and a wall after re-import. -/
theorem c1_roundtrip_amended :
    (∀ y x : ℤ, 0 ≤ y → y < 5 → 0 ≤ x → x < 5 → mazeC1.grid y x = 1 →
      reconC1.grid y x = 1) ∧
    mazeC1.grid 0 1 = 0 ∧ reconC1.grid 0 1 = 1 := by
  have mk : ∀ f : List ℕ, f ∈ facesC1 → ∀ y x : ℤ,
      markTarget vertsC1 (-5/2) (-5/2) f = some (y, x) →
      (0 ≤ y ∧ y < (7 : ℤ) ∧ 0 ≤ x ∧ x < (7 : ℤ)) → reconC1.grid y x = 1 := by
    intro f hf y x ht hb
    rw [reconC1_eval]
    exact foldMark_of_mem vertsC1 (-5/2) (-5/2) 7 7 facesC1 (fun _ _ => 0) f hf y x ht hb
  refine ⟨?_, by decide, mk [1, 2, 6, 5] (by decide) 0 1 (by decide) (by decide)⟩
  intro y x hy0 hy5 hx0 hx5 hw
  interval_cases y <;> interval_cases x
  · exact mk [4, 5, 6, 7] (by decide) 0 0 (by decide) (by decide)
  · exact absurd hw (by decide)
  · exact mk [12, 13, 14, 15] (by decide) 0 2 (by decide) (by decide)
  · exact mk [36, 37, 38, 39] (by decide) 0 3 (by decide) (by decide)
  · exact mk [44, 45, 46, 47] (by decide) 0 4 (by decide) (by decide)
  · exact mk [68, 69, 70, 71] (by decide) 1 0 (by decide) (by decide)
  · exact absurd hw (by decide)
  · exact mk [76, 77, 78, 79] (by decide) 1 2 (by decide) (by decide)
  · exact absurd hw (by decide)
  · exact mk [84, 85, 86, 87] (by decide) 1 4 (by decide) (by decide)
  · exact mk [92, 93, 94, 95] (by decide) 2 0 (by decide) (by decide)
  · exact absurd hw (by decide)
  · exact mk [100, 101, 102, 103] (by decide) 2 2 (by decide) (by decide)
  · exact absurd hw (by decide)
  · exact mk [108, 109, 110, 111] (by decide) 2 4 (by decide) (by decide)
  · exact mk [116, 117, 118, 119] (by decide) 3 0 (by decide) (by decide)
  · exact absurd hw (by decide)
  · exact absurd hw (by decide)
  · exact absurd hw (by decide)
  · exact mk [124, 125, 126, 127] (by decide) 3 4 (by decide) (by decide)
  · exact mk [132, 133, 134, 135] (by decide) 4 0 (by decide) (by decide)
  · exact mk [156, 157, 158, 159] (by decide) 4 1 (by decide) (by decide)
  · exact mk [164, 165, 166, 167] (by decide) 4 2 (by decide) (by decide)
  · exact absurd hw (by decide)
  · exact mk [172, 173, 174, 175] (by decide) 4 4 (by decide) (by decide)

set_option maxRecDepth 8000 in
set_option maxHeartbeats 2000000 in
/-- Witness for the amended claim C1 at a concrete wall cell. -/
theorem c1_roundtrip_amended_witness : mazeC1.grid 4 1 = 1 ∧ reconC1.grid 4 1 = 1 :=
  ⟨by decide, c1_roundtrip_amended.1 4 1 (by decide) (by decide) (by decide) (by decide)
    (by decide)⟩

theorem thickness_clamp_idem (t : ℚ) :
    pymax (1/10) (pymin 1 (pymax (1/10) (pymin 1 t))) = pymax (1/10) (pymin 1 t) := by
  simp only [pymax_eq, pymin_eq]
  have h1 : max (1/10 : ℚ) (min 1 t) ≤ 1 := max_le (by norm_num) (min_le_left _ _)
  rw [min_eq_right h1, ← max_assoc, max_self]

theorem height_clamp_idem (h : ℚ) :
    pymax (1/10) (pymax (1/10) h) = pymax (1/10) h := by
  simp only [pymax_eq]
  rw [← max_assoc, max_self]

/-- Claim C10: export_to_dat never rejects out-of-range styling inputs: for
any wall_thickness and wall_height arguments the exported geometry equals the
one produced by the already-clamped arguments (thickness into [0.1, 1.0],
height to at least 0.1); the clamps agree with the mathematical max/min. -/
theorem export_accepts_any_styling (m : Maze) (t h : ℚ) :
    exportGeometry m (some t) (some h) =
      exportGeometry m (some (pymax (1/10) (pymin 1 t))) (some (pymax (1/10) h)) ∧
    pymax (1/10) (pymin 1 t) = max (1/10) (min 1 t) ∧
    pymax (1/10) h = max (1/10) h := by
  refine ⟨?_, by rw [pymax_eq, pymin_eq], pymax_eq _ _⟩
  unfold exportGeometry
  simp only [Option.getD_some, thickness_clamp_idem, height_clamp_idem]

/-- Profile path of the modeler: an ordered 2D point list plus a closed flag
(the dict of points and closed of modeler_opengl). -/
structure ProfilePath where
  points : List (ℚ × ℚ)
  closed : Bool

/-- Embeds the vertex loop of _generate_sor for one path: for every slice,
every profile point rotated about the chosen axis.  The cosine and sine of
each slice angle are abstract parameters (the real-number trigonometry is
irrelevant to the counted structure of the mesh). -/
def sorPathVertices (slices : ℕ) (axisY : Bool) (cosT sinT : ℕ → ℚ)
    (pts : List (ℚ × ℚ)) : List V3 :=
  (List.range slices).flatMap (fun i =>
    pts.map (fun p =>
      if axisY then (p.1 * cosT i, p.2, -(p.1 * sinT i))
      else (p.1, p.2 * cosT i, p.2 * sinT i)))

/-- Embeds the face loop of _generate_sor for one path: one quad [p1,p4,p3,p2]
per (slice, segment) pair, wrapping angularly and along a closed path. -/
def sorPathFaces (slices off num_pts num_segs : ℕ) : List (List ℕ) :=
  (List.range slices).flatMap (fun i =>
    (List.range num_segs).map (fun j =>
      let next_i := (i + 1) % slices
      [off + i * num_pts + j,
       off + next_i * num_pts + j,
       off + next_i * num_pts + ((j + 1) % num_pts),
       off + i * num_pts + ((j + 1) % num_pts)]))

/-- Embeds _generate_sor: sweep every path with at least two points,
concatenating vertices and faces with the running vertex offset. -/
def generateSor (slices : ℕ) (axisY : Bool) (cosT sinT : ℕ → ℚ) :
    List ProfilePath → ℕ → List V3 × List (List ℕ)
  | [], _ => ([], [])
  | pd :: rest, off =>
    if pd.points.length < 2 then generateSor slices axisY cosT sinT rest off
    else
      let num_pts := pd.points.length
      let num_segs := if pd.closed then num_pts else num_pts - 1
      let vs := sorPathVertices slices axisY cosT sinT pd.points
      let fs := sorPathFaces slices off num_pts num_segs
      let r := generateSor slices axisY cosT sinT rest (off + slices * num_pts)
      (vs ++ r.1, fs ++ r.2)

/-- Mesh produced by _generate_sor from a fresh state (generate_model clears
the vertex and face lists before dispatching). -/
def generate_sor (slices : ℕ) (axisY : Bool) (cosT sinT : ℕ → ℚ)
    (paths : List ProfilePath) : List V3 × List (List ℕ) :=
  generateSor slices axisY cosT sinT paths 0

/-- Claim C6: generating an SOR model from the single open 3-point profile
path [(1,0),(2,1),(1,2)] with slices = 4 around the Y axis produces exactly
12 vertices and exactly 8 quad faces, for any values of the slice cosines
and sines. -/
theorem sor_three_point_profile_counts (cosT sinT : ℕ → ℚ) :
    (generate_sor 4 true cosT sinT [⟨[(1, 0), (2, 1), (1, 2)], false⟩]).1.length = 12 ∧
    (generate_sor 4 true cosT sinT [⟨[(1, 0), (2, 1), (1, 2)], false⟩]).2.length = 8 ∧
    ∀ f ∈ (generate_sor 4 true cosT sinT [⟨[(1, 0), (2, 1), (1, 2)], false⟩]).2,
      f.length = 4 := by
  refine ⟨?_, ?_, ?_⟩
  · simp [generate_sor, generateSor, sorPathVertices, sorPathFaces, List.range_succ]
  · simp [generate_sor, generateSor, sorPathVertices, sorPathFaces, List.range_succ]
  · intro f hf
    simp [generate_sor, generateSor, sorPathFaces, List.range_succ] at hf
    rcases hf with rfl | rfl | rfl | rfl | rfl | rfl | rfl | rfl <;> rfl

theorem idx_block_lt {i j slices num_pts : ℕ} (hi : i < slices) (hj : j < num_pts) :
    i * num_pts + j < slices * num_pts :=
  calc i * num_pts + j < i * num_pts + num_pts := by omega
    _ = (i + 1) * num_pts := by ring
    _ ≤ slices * num_pts := Nat.mul_le_mul_right _ (by omega)

theorem length_flatMap_const {α β : Type} (l : List α) (f : α → List β) (c : ℕ)
    (h : ∀ a ∈ l, (f a).length = c) : (l.flatMap f).length = l.length * c := by
  induction l with
  | nil => simp
  | cons a t ih =>
    rw [List.flatMap_cons, List.length_append, h a (List.mem_cons_self a t),
      ih (fun b hb => h b (List.mem_cons_of_mem _ hb)), List.length_cons]
    ring

theorem sorPathVertices_length (slices : ℕ) (axisY : Bool) (cosT sinT : ℕ → ℚ)
    (pts : List (ℚ × ℚ)) :
    (sorPathVertices slices axisY cosT sinT pts).length = slices * pts.length := by
  unfold sorPathVertices
  rw [length_flatMap_const _ _ pts.length (fun a _ => List.length_map _ _), List.length_range]

theorem sorPathFaces_bound (slices off num_pts num_segs : ℕ)
    (hseg : num_segs ≤ num_pts) (hpts : 0 < num_pts) :
    ∀ f ∈ sorPathFaces slices off num_pts num_segs, ∀ k ∈ f,
      k < off + slices * num_pts := by
  intro f hf k hk
  simp only [sorPathFaces, List.mem_flatMap, List.mem_map, List.mem_range] at hf
  obtain ⟨i, hi, j, hj, rfl⟩ := hf
  have hs : 0 < slices := Nat.pos_of_ne_zero (by omega)
  have hni : (i + 1) % slices < slices := Nat.mod_lt _ hs
  have hnj : (j + 1) % num_pts < num_pts := Nat.mod_lt _ hpts
  have hjp : j < num_pts := lt_of_lt_of_le hj hseg
  simp only [List.mem_cons, List.not_mem_nil, or_false] at hk
  rcases hk with rfl | rfl | rfl | rfl
  · rw [Nat.add_assoc]; exact Nat.add_lt_add_left (idx_block_lt hi hjp) off
  · rw [Nat.add_assoc]; exact Nat.add_lt_add_left (idx_block_lt hni hjp) off
  · rw [Nat.add_assoc]; exact Nat.add_lt_add_left (idx_block_lt hni hnj) off
  · rw [Nat.add_assoc]; exact Nat.add_lt_add_left (idx_block_lt hi hnj) off

theorem generateSor_skip_eq (slices : ℕ) (axisY : Bool) (cosT sinT : ℕ → ℚ)
    (pd : ProfilePath) (rest : List ProfilePath) (off : ℕ)
    (hlen : pd.points.length < 2) :
    generateSor slices axisY cosT sinT (pd :: rest) off =
      generateSor slices axisY cosT sinT rest off := by
  rw [generateSor]
  simp only [if_pos hlen]

theorem generateSor_cons_eq (slices : ℕ) (axisY : Bool) (cosT sinT : ℕ → ℚ)
    (pd : ProfilePath) (rest : List ProfilePath) (off : ℕ)
    (hlen : ¬ pd.points.length < 2) :
    generateSor slices axisY cosT sinT (pd :: rest) off =
      (sorPathVertices slices axisY cosT sinT pd.points ++
        (generateSor slices axisY cosT sinT rest (off + slices * pd.points.length)).1,
       sorPathFaces slices off pd.points.length
          (if pd.closed then pd.points.length else pd.points.length - 1) ++
        (generateSor slices axisY cosT sinT rest (off + slices * pd.points.length)).2) := by
  rw [generateSor]
  simp only [if_neg hlen]

theorem generateSor_valid (slices : ℕ) (axisY : Bool) (cosT sinT : ℕ → ℚ) :
    ∀ (paths : List ProfilePath) (off : ℕ),
      ∀ f ∈ (generateSor slices axisY cosT sinT paths off).2, ∀ k ∈ f,
        k < off + (generateSor slices axisY cosT sinT paths off).1.length := by
  intro paths
  induction paths with
  | nil => intro off f hf; simp [generateSor] at hf
  | cons pd rest ih =>
    intro off f hf k hk
    by_cases hlen : pd.points.length < 2
    · rw [generateSor_skip_eq slices axisY cosT sinT pd rest off hlen] at hf ⊢
      exact ih off f hf k hk
    · rw [generateSor_cons_eq slices axisY cosT sinT pd rest off hlen] at hf ⊢
      rcases List.mem_append.mp hf with h1 | h2
      · have hb := sorPathFaces_bound slices off pd.points.length
          (if pd.closed then pd.points.length else pd.points.length - 1)
          (by split <;> omega) (by omega) f h1 k hk
        rw [List.length_append, sorPathVertices_length]
        omega
      · have hb := ih (off + slices * pd.points.length) f h2 k hk
        rw [List.length_append, sorPathVertices_length]
        omega

/-- Embeds the extrusion loop of _generate_sweep for one path: 31 layers
(steps = 30) of the profile, each twisted; the cosine and sine of each layer
angle are abstract parameters. -/
def sweepPathVertices (cosA sinA : ℕ → ℚ) (sweep_length : ℚ)
    (pts : List (ℚ × ℚ)) : List V3 :=
  (List.range (30 + 1)).flatMap (fun k =>
    let t : ℚ := (k : ℚ) / 30
    let z := (t - 1/2) * sweep_length
    pts.map (fun p =>
      (p.1 * cosA k - p.2 * sinA k, p.1 * sinA k + p.2 * cosA k, z)))

/-- Embeds the side-face loop of _generate_sweep for one path: quads between
consecutive layers, plus the wraparound quad for a closed profile. -/
def sweepSideFaces (off num_pts : ℕ) (closed : Bool) : List (List ℕ) :=
  (List.range 30).flatMap (fun k =>
    ((List.range (num_pts - 1)).map (fun i =>
      [off + k * num_pts + i, off + k * num_pts + (i + 1),
       off + (k + 1) * num_pts + (i + 1), off + (k + 1) * num_pts + i])) ++
    (if closed then
      [[off + k * num_pts + (num_pts - 1), off + k * num_pts,
        off + (k + 1) * num_pts, off + (k + 1) * num_pts + (num_pts - 1)]]
     else []))

/-- Embeds one cap fan of _generate_sweep: triangles from the cap center c to
consecutive points of the given layer.  The source loop breaks at the last
index for an open profile; since the break fires only at the final
iteration, dropping exactly that entry is equivalent. -/
def capFan (c first num_pts : ℕ) (closed rev : Bool) : List (List ℕ) :=
  (List.range num_pts).filterMap (fun i =>
    if closed = false ∧ i = num_pts - 1 then none
    else
      let curr := first + i
      let next_p := first + ((i + 1) % num_pts)
      some (if rev then [c, next_p, curr] else [c, curr, next_p]))

/-- Embeds _generate_sweep: extrude every path with at least two points,
appending cap centers and fans when caps are enabled and the profile has more
than two points.  cosE and sinE abstract the cosine and sine of the full
twist angle used for the rotated end-cap center. -/
def generateSweep (cosA sinA : ℕ → ℚ) (cosE sinE sweep_length : ℚ) (caps : Bool) :
    List ProfilePath → ℕ → List V3 × List (List ℕ)
  | [], _ => ([], [])
  | pd :: rest, off =>
    if pd.points.length < 2 then
      generateSweep cosA sinA cosE sinE sweep_length caps rest off
    else
      let num_pts := pd.points.length
      let vs := sweepPathVertices cosA sinA sweep_length pd.points
      let fs := sweepSideFaces off num_pts pd.closed
      if caps = true ∧ 2 < num_pts then
        let cx := (pd.points.map Prod.fst).sum / (num_pts : ℚ)
        let cy := (pd.points.map Prod.snd).sum / (num_pts : ℚ)
        let startFan := capFan (off + vs.length) off num_pts pd.closed true
        let endFan := capFan (off + vs.length + 1) (off + 30 * num_pts) num_pts pd.closed false
        let rcx := cx * cosE - cy * sinE
        let rcy := cx * sinE + cy * cosE
        let r := generateSweep cosA sinA cosE sinE sweep_length caps rest (off + vs.length + 2)
        (vs ++ [(cx, cy, -(1/2) * sweep_length), (rcx, rcy, 1/2 * sweep_length)] ++ r.1,
         fs ++ startFan ++ endFan ++ r.2)
      else
        let r := generateSweep cosA sinA cosE sinE sweep_length caps rest (off + vs.length)
        (vs ++ r.1, fs ++ r.2)

/-- Mesh produced by _generate_sweep from a fresh state. -/
def generate_sweep (cosA sinA : ℕ → ℚ) (cosE sinE sweep_length : ℚ) (caps : Bool)
    (paths : List ProfilePath) : List V3 × List (List ℕ) :=
  generateSweep cosA sinA cosE sinE sweep_length caps paths 0

/-- Accumulation step of calculate_normals: add the face normal into the slot
of one vertex index (sor_normals[idx] = old + n). -/
def addAt (ns : List V3) (idx : ℕ) (n : V3) : List V3 :=
  let o := ns.getD idx (0, 0, 0)
  ns.set idx (o.1 + n.1, o.2.1 + n.2.1, o.2.2 + n.2.2)

/-- Embeds the accumulation phase of calculate_normals: zero-initialize one
normal slot per vertex, then for every face with at least three vertices and
only in-range indices, accumulate the cross product of its first two edge
vectors into the slots of all its vertex indices.  The in-range guard makes
the getD defaults unreachable. -/
def accNormals (verts : List V3) (faces : List (List ℕ)) : List V3 :=
  faces.foldl (fun ns f =>
    match f with
    | i0 :: i1 :: i2 :: _ =>
      if f.any (fun idx => verts.length ≤ idx) then ns
      else
        let v1 := verts.getD i0 (0, 0, 0)
        let v2 := verts.getD i1 (0, 0, 0)
        let v3 := verts.getD i2 (0, 0, 0)
        let u := (v2.1 - v1.1, v2.2.1 - v1.2.1, v2.2.2 - v1.2.2)
        let w := (v3.1 - v1.1, v3.2.1 - v1.2.1, v3.2.2 - v1.2.2)
        let n := (u.2.1 * w.2.2 - u.2.2 * w.2.1, u.2.2 * w.1 - u.1 * w.2.2,
                  u.1 * w.2.1 - u.2.1 * w.1)
        f.foldl (fun ns2 idx => addAt ns2 idx n) ns
    | _ => ns)
    (List.replicate verts.length ((0 : ℚ), (0 : ℚ), (0 : ℚ)))

/-- Real-number semantics of the normalization phase of calculate_normals for
one accumulated normal v: with len = sqrt of the squared length, divide each
component by len when len exceeds 1e-6, else fall back to (0,1,0).  Stated
relationally because square roots leave the rationals. -/
def NormalizeSpec (v : V3) (n : ℝ × ℝ × ℝ) : Prop :=
  let s : ℝ := ((v.1 ^ 2 + v.2.1 ^ 2 + v.2.2 ^ 2 : ℚ) : ℝ)
  if 1 / 1000000 < Real.sqrt s then
    n = ((v.1 : ℝ) / Real.sqrt s, (v.2.1 : ℝ) / Real.sqrt s, (v.2.2 : ℝ) / Real.sqrt s)
  else n = (0, 1, 0)

/-- State of miro_weather.WeatherSystem relevant to the update step. -/
structure WeatherSystem where
  extent : ℚ
  positions : List V3
  velocities : List V3
  active : Bool
  snow : Bool

/-- Embeds one particle of WeatherSystem.update: integrate velocity, add the
snow jitter (its y component zeroed, scaled by delta time), wrap x and z into
the player-centred window, and re-inject below the floor by adding the full
vertical range. -/
def particleStep (extent dt px pz : ℚ) (isSnow : Bool) (noise p v : V3) : V3 :=
  let p1 := (p.1 + v.1 * dt, p.2.1 + v.2.1 * dt, p.2.2 + v.2.2 * dt)
  let p2 := if isSnow then (p1.1 + noise.1 * dt, p1.2.1, p1.2.2 + noise.2.2 * dt) else p1
  let wx := px + pymod ((p2.1 - px) + extent) (2 * extent) - extent
  let wz := pz + pymod ((p2.2.2 - pz) + extent) (2 * extent) - extent
  let wy := if p2.2.1 < -2 then p2.2.1 + (15 - (-2 : ℚ)) else p2.2.1
  (wx, wy, wz)

/-- Embeds WeatherSystem.update: no-op when inactive, otherwise apply the
particle step to every particle (the numpy vectorized arithmetic, written
per particle; the random snow jitter is an abstract per-particle input). -/
def WeatherSystem.update (w : WeatherSystem) (dt : ℚ) (player : V3)
    (noise : ℕ → V3) : WeatherSystem :=
  if w.active = false then w
  else
    { w with positions :=
        (List.range w.positions.length).map (fun i =>
          particleStep w.extent dt player.1 player.2.2 w.snow (noise i)
            (w.positions.getD i (0, 0, 0)) (w.velocities.getD i (0, 0, 0))) }

theorem sweepPathVertices_length (cosA sinA : ℕ → ℚ) (len : ℚ) (pts : List (ℚ × ℚ)) :
    (sweepPathVertices cosA sinA len pts).length = 31 * pts.length := by
  unfold sweepPathVertices
  rw [length_flatMap_const _ _ pts.length (fun a _ => by simp), List.length_range]

theorem sweepSideFaces_bound (off num_pts : ℕ) (closed : Bool) (hpts : 0 < num_pts) :
    ∀ f ∈ sweepSideFaces off num_pts closed, ∀ k ∈ f, k < off + 31 * num_pts := by
  intro f hf k hk
  simp only [sweepSideFaces, List.mem_flatMap, List.mem_range, List.mem_append,
    List.mem_map] at hf
  obtain ⟨kk, hkk, hf⟩ := hf
  rcases hf with ⟨i, hi, rfl⟩ | hcl
  · simp only [List.mem_cons, List.not_mem_nil, or_false] at hk
    rcases hk with rfl | rfl | rfl | rfl
    · rw [Nat.add_assoc]
      exact Nat.add_lt_add_left (idx_block_lt (by omega) (by omega : i < num_pts)) off
    · rw [Nat.add_assoc]
      exact Nat.add_lt_add_left (idx_block_lt (by omega) (by omega : i + 1 < num_pts)) off
    · rw [Nat.add_assoc]
      exact Nat.add_lt_add_left
        (idx_block_lt (by omega : kk + 1 < 31) (by omega : i + 1 < num_pts)) off
    · rw [Nat.add_assoc]
      exact Nat.add_lt_add_left (idx_block_lt (by omega : kk + 1 < 31) (by omega)) off
  · by_cases hc : closed = true
    · rw [if_pos hc] at hcl
      simp only [List.mem_cons, List.not_mem_nil, or_false] at hcl
      subst hcl
      simp only [List.mem_cons, List.not_mem_nil, or_false] at hk
      rcases hk with rfl | rfl | rfl | rfl
      · rw [Nat.add_assoc]
        exact Nat.add_lt_add_left (idx_block_lt (by omega) (by omega)) off
      · have h := @idx_block_lt kk 0 31 num_pts (by omega) hpts
        omega
      · have h := @idx_block_lt (kk + 1) 0 31 num_pts (by omega) hpts
        omega
      · rw [Nat.add_assoc]
        exact Nat.add_lt_add_left (idx_block_lt (by omega : kk + 1 < 31) (by omega)) off
    · rw [if_neg hc] at hcl
      cases hcl

theorem capFan_bound (c first num_pts : ℕ) (closed rev : Bool) (hpts : 0 < num_pts) :
    ∀ f ∈ capFan c first num_pts closed rev, ∀ k ∈ f, k = c ∨ k < first + num_pts := by
  intro f hf k hk
  simp only [capFan, List.mem_filterMap, List.mem_range] at hf
  obtain ⟨i, hi, hsome⟩ := hf
  split at hsome
  · cases hsome
  · have hm : (i + 1) % num_pts < num_pts := Nat.mod_lt _ hpts
    rcases Option.some_injective _ hsome with rfl
    by_cases hr : rev = true <;>
      [rw [if_pos hr] at hk; rw [if_neg hr] at hk] <;>
      simp only [List.mem_cons, List.not_mem_nil, or_false] at hk <;>
      rcases hk with rfl | rfl | rfl
    · exact Or.inl rfl
    · exact Or.inr (by omega)
    · exact Or.inr (by omega)
    · exact Or.inl rfl
    · exact Or.inr (by omega)
    · exact Or.inr (by omega)

theorem generateSweep_skip_eq (cosA sinA : ℕ → ℚ) (cosE sinE len : ℚ) (caps : Bool)
    (pd : ProfilePath) (rest : List ProfilePath) (off : ℕ)
    (hlen : pd.points.length < 2) :
    generateSweep cosA sinA cosE sinE len caps (pd :: rest) off =
      generateSweep cosA sinA cosE sinE len caps rest off := by
  rw [generateSweep]
  simp only [if_pos hlen]

theorem generateSweep_caps_eq (cosA sinA : ℕ → ℚ) (cosE sinE len : ℚ) (caps : Bool)
    (pd : ProfilePath) (rest : List ProfilePath) (off : ℕ)
    (hlen : ¬ pd.points.length < 2) (hcap : caps = true ∧ 2 < pd.points.length) :
    generateSweep cosA sinA cosE sinE len caps (pd :: rest) off =
      (sweepPathVertices cosA sinA len pd.points ++
        [((pd.points.map Prod.fst).sum / (pd.points.length : ℚ),
          (pd.points.map Prod.snd).sum / (pd.points.length : ℚ), -(1/2) * len),
         ((pd.points.map Prod.fst).sum / (pd.points.length : ℚ) * cosE -
            (pd.points.map Prod.snd).sum / (pd.points.length : ℚ) * sinE,
          (pd.points.map Prod.fst).sum / (pd.points.length : ℚ) * sinE +
            (pd.points.map Prod.snd).sum / (pd.points.length : ℚ) * cosE,
          1/2 * len)] ++
        (generateSweep cosA sinA cosE sinE len caps rest
          (off + (sweepPathVertices cosA sinA len pd.points).length + 2)).1,
       sweepSideFaces off pd.points.length pd.closed ++
        capFan (off + (sweepPathVertices cosA sinA len pd.points).length) off
          pd.points.length pd.closed true ++
        capFan (off + (sweepPathVertices cosA sinA len pd.points).length + 1)
          (off + 30 * pd.points.length) pd.points.length pd.closed false ++
        (generateSweep cosA sinA cosE sinE len caps rest
          (off + (sweepPathVertices cosA sinA len pd.points).length + 2)).2) := by
  rw [generateSweep]
  simp only [if_neg hlen, if_pos hcap]

theorem generateSweep_plain_eq (cosA sinA : ℕ → ℚ) (cosE sinE len : ℚ) (caps : Bool)
    (pd : ProfilePath) (rest : List ProfilePath) (off : ℕ)
    (hlen : ¬ pd.points.length < 2) (hcap : ¬ (caps = true ∧ 2 < pd.points.length)) :
    generateSweep cosA sinA cosE sinE len caps (pd :: rest) off =
      (sweepPathVertices cosA sinA len pd.points ++
        (generateSweep cosA sinA cosE sinE len caps rest
          (off + (sweepPathVertices cosA sinA len pd.points).length)).1,
       sweepSideFaces off pd.points.length pd.closed ++
        (generateSweep cosA sinA cosE sinE len caps rest
          (off + (sweepPathVertices cosA sinA len pd.points).length)).2) := by
  rw [generateSweep]
  simp only [if_neg hlen, if_neg hcap]

theorem generateSweep_valid (cosA sinA : ℕ → ℚ) (cosE sinE len : ℚ) (caps : Bool) :
    ∀ (paths : List ProfilePath) (off : ℕ),
      ∀ f ∈ (generateSweep cosA sinA cosE sinE len caps paths off).2, ∀ k ∈ f,
        k < off + (generateSweep cosA sinA cosE sinE len caps paths off).1.length := by
  intro paths
  induction paths with
  | nil => intro off f hf; simp [generateSweep] at hf
  | cons pd rest ih =>
    intro off f hf k hk
    by_cases hlen : pd.points.length < 2
    · rw [generateSweep_skip_eq cosA sinA cosE sinE len caps pd rest off hlen] at hf ⊢
      exact ih off f hf k hk
    · by_cases hcap : caps = true ∧ 2 < pd.points.length
      · rw [generateSweep_caps_eq cosA sinA cosE sinE len caps pd rest off hlen hcap]
          at hf ⊢
        simp only [List.length_append, sweepPathVertices_length, List.length_cons,
          List.length_nil]
        rcases List.mem_append.mp hf with h123 | h4
        · rcases List.mem_append.mp h123 with h12 | h3
          · rcases List.mem_append.mp h12 with h1 | h2
            · have hb := sweepSideFaces_bound off pd.points.length pd.closed (by omega)
                f h1 k hk
              omega
            · have hb := capFan_bound
                (off + (sweepPathVertices cosA sinA len pd.points).length)
                off pd.points.length pd.closed true (by omega) f h2 k hk
              rw [sweepPathVertices_length] at hb
              rcases hb with rfl | hlt <;> omega
          · have hb := capFan_bound
              (off + (sweepPathVertices cosA sinA len pd.points).length + 1)
              (off + 30 * pd.points.length) pd.points.length pd.closed false
              (by omega) f h3 k hk
            rw [sweepPathVertices_length] at hb
            rcases hb with rfl | hlt <;> omega
        · have hb := ih (off + (sweepPathVertices cosA sinA len pd.points).length + 2)
            f h4 k hk
          rw [sweepPathVertices_length] at hb
          omega
      · rw [generateSweep_plain_eq cosA sinA cosE sinE len caps pd rest off hlen hcap]
          at hf ⊢
        simp only [List.length_append, sweepPathVertices_length]
        rcases List.mem_append.mp hf with h1 | h2
        · have hb := sweepSideFaces_bound off pd.points.length pd.closed (by omega) f h1 k hk
          omega
        · have hb := ih (off + (sweepPathVertices cosA sinA len pd.points).length) f h2 k hk
          rw [sweepPathVertices_length] at hb
          omega


def MeshInv (st : MazeMesh) : Prop :=
  st.vertex_count = st.vertices.length ∧
  ∀ f ∈ st.faces, ∀ k ∈ f, k < st.vertices.length

theorem addBox_inv (height x0 x1 z0 z1 : ℚ) (st : MazeMesh) (h : MeshInv st) :
    MeshInv (addBox height st x0 x1 z0 z1) := by
  obtain ⟨hc, hfaces⟩ := h
  constructor
  · simp [addBox, hc]
  · intro f hf k hk
    simp only [addBox, List.length_append, List.length_cons, List.length_nil] at hf ⊢
    rcases List.mem_append.mp hf with hold | hnew
    · have := hfaces f hold k hk
      omega
    · simp only [List.mem_cons, List.not_mem_nil, or_false] at hnew
      rcases hnew with rfl | rfl | rfl | rfl | rfl | rfl <;>
        (simp only [List.mem_cons, List.not_mem_nil, or_false] at hk
         rcases hk with rfl | rfl | rfl | rfl <;> omega)

theorem cellBoxes_inv (W H : ℕ) (g : Grid) (th hei : ℚ) (y x : ℕ) (st : MazeMesh)
    (h : MeshInv st) : MeshInv (cellBoxes W H g th hei y x st) := by
  unfold cellBoxes
  dsimp only
  split
  · split
    · exact addBox_inv _ _ _ _ _ _ h
    · split
      · exact addBox_inv _ _ _ _ _ _ h
      · split_ifs <;> (repeat apply addBox_inv) <;> exact h
  · exact h

theorem foldl_inv {α : Type} (P : MazeMesh → Prop) (f : MazeMesh → α → MazeMesh)
    (hstep : ∀ st a, P st → P (f st a)) :
    ∀ (l : List α) (st : MazeMesh), P st → P (l.foldl f st) := by
  intro l
  induction l with
  | nil => intro st h; exact h
  | cons a t ih => intro st h; exact ih _ (hstep st a h)

theorem exportGeometry_inv (m : Maze) (topt hopt : Option ℚ) :
    MeshInv (exportGeometry m topt hopt) := by
  unfold exportGeometry
  refine foldl_inv _ _ ?_ _ _ ⟨rfl, fun f hf => absurd hf (List.not_mem_nil f)⟩
  intro st y h
  exact foldl_inv _ _ (fun st2 a h2 => cellBoxes_inv _ _ _ _ _ y a st2 h2) _ st h


/-- Claim C7: for every mesh produced by SOR generation, sweep generation, or
maze wall meshing (any paths, slices, sweep parameters, abstract slice/twist
trigonometry, or grid), every vertex index of every face is strictly smaller
than the number of vertices of the mesh. -/
theorem mesh_face_indices_valid (slices : ℕ) (axisY : Bool)
    (cosT sinT cosA sinA : ℕ → ℚ) (cosE sinE sweep_length : ℚ) (caps : Bool)
    (ps1 ps2 : List ProfilePath) (m : Maze) (topt hopt : Option ℚ) :
    (∀ f ∈ (generate_sor slices axisY cosT sinT ps1).2, ∀ k ∈ f,
      k < (generate_sor slices axisY cosT sinT ps1).1.length) ∧
    (∀ f ∈ (generate_sweep cosA sinA cosE sinE sweep_length caps ps2).2, ∀ k ∈ f,
      k < (generate_sweep cosA sinA cosE sinE sweep_length caps ps2).1.length) ∧
    (∀ f ∈ (exportGeometry m topt hopt).faces, ∀ k ∈ f,
      k < (exportGeometry m topt hopt).vertices.length) := by
  refine ⟨?_, ?_, (exportGeometry_inv m topt hopt).2⟩
  · intro f hf k hk
    have h := generateSor_valid slices axisY cosT sinT ps1 0 f hf k hk
    simpa using h
  · intro f hf k hk
    have h := generateSweep_valid cosA sinA cosE sinE sweep_length caps ps2 0 f hf k hk
    simpa using h

/-- Claim C8: after normal computation, modelled in exact real arithmetic,
every vertex normal has squared length exactly 1 (hence length 1, within any
epsilon) or is the fallback (0,1,0): accNormals is the accumulation phase of
calculate_normals and NormalizeSpec its normalization phase. -/
theorem normals_unit_length (verts : List V3) (faces : List (List ℕ)) (i : ℕ) (v : V3)
    (hv : (accNormals verts faces).get? i = some v) (n : ℝ × ℝ × ℝ)
    (hn : NormalizeSpec v n) :
    n.1 ^ 2 + n.2.1 ^ 2 + n.2.2 ^ 2 = 1 ∨ n = (0, 1, 0) := by
  unfold NormalizeSpec at hn
  dsimp only at hn
  split at hn
  · subst hn
    left
    rename_i hguard
    set s : ℝ := ((v.1 ^ 2 + v.2.1 ^ 2 + v.2.2 ^ 2 : ℚ) : ℝ) with hs
    have hspos : 0 < s := by
      by_contra hle
      push_neg at hle
      rw [Real.sqrt_eq_zero'.mpr hle] at hguard
      norm_num at hguard
    have hsq : Real.sqrt s ^ 2 = s := Real.sq_sqrt hspos.le
    have hsne : Real.sqrt s ≠ 0 := by
      intro h0
      rw [h0] at hsq
      simp at hsq
      exact absurd hsq.symm (ne_of_gt hspos)
    dsimp only
    rw [div_pow, div_pow, div_pow, hsq, div_add_div_same, div_add_div_same,
      div_eq_one_iff_eq (ne_of_gt hspos)]
    rw [hs]
    push_cast
    ring
  · right
    exact hn

/-- Witness for claim C8 on a one-triangle mesh. -/
theorem normals_unit_length_witness :
    (accNormals [(0, 0, 0), (1, 0, 0), (0, 1, 0)] [[0, 1, 2]]).get? 0 = some (0, 0, 1) ∧
    (((0 : ℝ) ^ 2 + (0 : ℝ) ^ 2 + (1 : ℝ) ^ 2 = 1) ∨ ((0 : ℝ), (0 : ℝ), (1 : ℝ)) = (0, 1, 0)) :=
  ⟨by decide, normals_unit_length [(0, 0, 0), (1, 0, 0), (0, 1, 0)] [[0, 1, 2]] 0 (0, 0, 1)
    (by decide) ((0 : ℝ), (0 : ℝ), (1 : ℝ)) (by
      unfold NormalizeSpec
      norm_num [Real.sqrt_one])⟩

theorem pymod_bounds (a b : ℚ) (hb : 0 < b) : 0 ≤ pymod a b ∧ pymod a b < b := by
  rw [pymod_eq]
  have hbne : b ≠ 0 := ne_of_gt hb
  have hfr : a - b * ⌊a / b⌋ = b * Int.fract (a / b) := by
    rw [Int.fract]
    field_simp
  constructor
  · rw [hfr]
    exact mul_nonneg hb.le (Int.fract_nonneg _)
  · rw [hfr]
    exact mul_lt_of_lt_one_right hb (Int.fract_lt_one _)

theorem wrap_bounds (c e q : ℚ) (he : 0 < e) :
    c - e ≤ c + pymod (q - c + e) (2 * e) - e ∧
    c + pymod (q - c + e) (2 * e) - e ≤ c + e := by
  have h := pymod_bounds (q - c + e) (2 * e) (by linarith)
  constructor <;> linarith [h.1, h.2]

/-- Claim C9: after a weather update tick with the weather active, every
particle lies within the square window of half-width extent centred on the
player in both x and z, for any previous particle state, any velocities, any
snow jitter and any player position. -/
theorem weather_particles_follow_player (w : WeatherSystem) (dt : ℚ) (player : V3)
    (noise : ℕ → V3) (hact : w.active = true) (hext : 0 < w.extent) :
    ∀ p ∈ (w.update dt player noise).positions,
      player.1 - w.extent ≤ p.1 ∧ p.1 ≤ player.1 + w.extent ∧
      player.2.2 - w.extent ≤ p.2.2 ∧ p.2.2 ≤ player.2.2 + w.extent := by
  intro p hp
  unfold WeatherSystem.update at hp
  rw [if_neg (by simp [hact])] at hp
  simp only [List.mem_map, List.mem_range] at hp
  obtain ⟨i, hi, rfl⟩ := hp
  unfold particleStep
  dsimp only
  exact ⟨(wrap_bounds player.1 w.extent _ hext).1, (wrap_bounds player.1 w.extent _ hext).2,
    (wrap_bounds player.2.2 w.extent _ hext).1, (wrap_bounds player.2.2 w.extent _ hext).2⟩

/-- Concrete weather state for the C9 witness. -/
def weatherW : WeatherSystem := ⟨12, [(100, 0, -50)], [(0, 0, 0)], true, false⟩

/-- Witness for claim C9: a particle far outside the window is wrapped back
inside it. -/
theorem weather_particles_follow_player_witness :
    weatherW.active = true ∧ (0 : ℚ) < weatherW.extent ∧
    ((4 : ℚ), (0 : ℚ), (-2 : ℚ)) ∈ (weatherW.update 1 (0, 0, 0) (fun _ => (0, 0, 0))).positions ∧
    ((0 : ℚ) - 12 ≤ 4 ∧ (4 : ℚ) ≤ 0 + 12 ∧ (0 : ℚ) - 12 ≤ -2 ∧ (-2 : ℚ) ≤ 0 + 12) :=
  ⟨rfl, by decide, by decide,
    weather_particles_follow_player weatherW 1 (0, 0, 0) (fun _ => (0, 0, 0)) rfl
      (by decide) (4, 0, -2) (by decide)⟩


/-- Player collision radius of miro_opengl (PLAYER_RADIUS = 0.25). -/
def PLAYER_RADIUS : ℚ := 1/4

/-- Slice of the miro_opengl game state consumed by _check_collision and
_get_floor_height_at; the floor height map is the dict as an association
list. -/
structure MiroState where
  maze_grid : List (List ℕ)
  grid_min_x : ℚ
  grid_min_z : ℚ
  grid_scale : ℚ
  floor_height_map : List ((ℤ × ℤ) × ℚ)
  is_grounded : Bool
  player_pos : V3
  original_maze_width : ℕ
  original_maze_height : ℕ

/-- Embeds one sample of the 3x3 loop of _check_collision: convert the point
to grid coordinates with Python int() truncation, collide when out of bounds
or on a wall cell. -/
def sampleHit (st : MiroState) (cx cz : ℚ) : Bool :=
  let gx := pyInt ((cx - st.grid_min_x) / st.grid_scale)
  let gz := pyInt ((cz - st.grid_min_z) / st.grid_scale)
  if ¬ (0 ≤ gz ∧ gz < (st.maze_grid.length : ℤ) ∧ 0 ≤ gx ∧
        gx < (st.maze_grid.headI.length : ℤ)) then
    true
  else
    decide ((st.maze_grid.getD gz.toNat []).getD gx.toNat 0 = 1)

/-- Embeds the 3x3 sampling loops of _check_collision (early return on the
first colliding sample equals the disjunction). -/
def wallHit (st : MiroState) (x z : ℚ) : Bool :=
  ([-PLAYER_RADIUS, 0, PLAYER_RADIUS]).any fun offset_x =>
    ([-PLAYER_RADIUS, 0, PLAYER_RADIUS]).any fun offset_z =>
      sampleHit st (x + offset_x) (z + offset_z)

/-- Embeds _get_floor_height_at: zero without a height map, else look the
tile up in the map (original-grid offsets when the original dimensions are
known, collision-grid offsets as fallback), defaulting to 0. -/
def get_floor_height_at (st : MiroState) (x z : ℚ) : ℚ :=
  if st.floor_height_map = [] then 0
  else
    let gp : ℤ × ℤ :=
      if st.original_maze_width ≠ 0 ∧ st.original_maze_height ≠ 0 then
        (pyInt (x - -((st.original_maze_width : ℚ) / 2)),
         pyInt (z - -((st.original_maze_height : ℚ) / 2)))
      else
        (pyInt ((x - st.grid_min_x) / st.grid_scale),
         pyInt ((z - st.grid_min_z) / st.grid_scale))
    (st.floor_height_map.lookup gp).getD 0

/-- Embeds _check_collision: no maze means no collision; any of the nine
samples colliding means collision; otherwise, when a height map is present
and the player is grounded, block steps up of more than 0.01. -/
def check_collision (st : MiroState) (x z : ℚ) : Bool :=
  if st.maze_grid = [] then false
  else if wallHit st x z then true
  else if st.floor_height_map ≠ [] ∧ st.is_grounded = true then
    decide (1/100 < get_floor_height_at st x z -
      get_floor_height_at st st.player_pos.1 st.player_pos.2.2)
  else false

/-- Claim C4's specification of one sample, following the spec's words: grid
coordinates via the mathematical floor of (coord - gridMin)/gridScale,
colliding when out of bounds or on a wall cell. -/
def specSampleHit (st : MiroState) (cx cz : ℚ) : Prop :=
  let gx := ⌊(cx - st.grid_min_x) / st.grid_scale⌋
  let gz := ⌊(cz - st.grid_min_z) / st.grid_scale⌋
  ¬ (0 ≤ gz ∧ gz < (st.maze_grid.length : ℤ) ∧ 0 ≤ gx ∧
      gx < (st.maze_grid.headI.length : ℤ)) ∨
  (st.maze_grid.getD gz.toNat []).getD gx.toNat 0 = 1

instance specSampleHitDecidable (st : MiroState) (cx cz : ℚ) :
    Decidable (specSampleHit st cx cz) := by
  unfold specSampleHit
  dsimp only
  infer_instance

/-- Claim C4's specification of checkCollision: true iff at least one of the
nine samples collides per specSampleHit. -/
def specCollision (st : MiroState) (x z : ℚ) : Prop :=
  ∃ offset_x ∈ ([-PLAYER_RADIUS, 0, PLAYER_RADIUS] : List ℚ),
    ∃ offset_z ∈ ([-PLAYER_RADIUS, 0, PLAYER_RADIUS] : List ℚ),
      specSampleHit st (x + offset_x) (z + offset_z)

instance specCollisionDecidable (st : MiroState) (x z : ℚ) :
    Decidable (specCollision st x z) := by
  unfold specCollision
  infer_instance

/-- Loaded v7-style state: all-passage 3x3 grid, height map raising tile
(1,1) by 1.0, grounded player on tile (0,0). -/
def stA : MiroState :=
  ⟨[[0, 0, 0], [0, 0, 0], [0, 0, 0]], 0, 0, 1, [((1, 1), 1)], true, (1/2, 0, 1/2), 0, 0⟩

/-- Loaded state with a single passage cell and no height map. -/
def stB : MiroState := ⟨[[0]], 0, 0, 1, [], true, (0, 0, 0), 0, 0⟩

/-- Claim C4 (counterexample): the claimed equivalence fails in both
directions: in stA the height-difference rule makes _check_collision true
although no sample is a wall or out of bounds; in stB the sample at
x-0.25 = -0.05 lies outside the grid under the spec's floor mapping, yet
int() truncation maps it to in-bounds cell 0 and _check_collision is false. -/
theorem c4_collision_counterexample :
    (stA.maze_grid ≠ [] ∧ check_collision stA (3/2) (3/2) = true ∧
      ¬ specCollision stA (3/2) (3/2)) ∧
    (stB.maze_grid ≠ [] ∧ check_collision stB (1/5) (1/2) = false ∧
      specCollision stB (1/5) (1/2)) := by
  decide

/-- Claim C4 (amended): with a maze loaded, checkCollision(x,z) is true iff
at least one of the nine samples, mapped to grid coordinates with int()
truncation toward zero, is out of bounds or a wall cell, or the
height-difference rule (height map present, grounded, target floor more than
0.01 above the current floor) triggers; false in every other case. -/
theorem c4_collision_amended (st : MiroState) (x z : ℚ) (hmz : st.maze_grid ≠ []) :
    check_collision st x z = true ↔
      ((∃ offset_x ∈ ([-PLAYER_RADIUS, 0, PLAYER_RADIUS] : List ℚ),
          ∃ offset_z ∈ ([-PLAYER_RADIUS, 0, PLAYER_RADIUS] : List ℚ),
            sampleHit st (x + offset_x) (z + offset_z) = true) ∨
        (st.floor_height_map ≠ [] ∧ st.is_grounded = true ∧
          1/100 < get_floor_height_at st x z -
            get_floor_height_at st st.player_pos.1 st.player_pos.2.2)) := by
  have hany : wallHit st x z = true ↔
      (∃ offset_x ∈ ([-PLAYER_RADIUS, 0, PLAYER_RADIUS] : List ℚ),
        ∃ offset_z ∈ ([-PLAYER_RADIUS, 0, PLAYER_RADIUS] : List ℚ),
          sampleHit st (x + offset_x) (z + offset_z) = true) := by
    simp [wallHit, List.any_eq_true]
  unfold check_collision
  rw [if_neg hmz]
  by_cases hw : wallHit st x z = true
  · rw [if_pos hw]
    simp only [true_iff]
    exact Or.inl (hany.mp hw)
  · rw [if_neg hw]
    by_cases hh : st.floor_height_map ≠ [] ∧ st.is_grounded = true
    · rw [if_pos hh]
      simp only [decide_eq_true_eq]
      constructor
      · intro hd
        exact Or.inr ⟨hh.1, hh.2, hd⟩
      · intro hor
        rcases hor with hex | ⟨_, _, hd⟩
        · exact absurd (hany.mpr hex) hw
        · exact hd
    · rw [if_neg hh]
      constructor
      · intro hfalse
        cases hfalse
      · intro hor
        rcases hor with hex | ⟨h1, h2, _⟩
        · exact absurd (hany.mpr hex) hw
        · exact absurd ⟨h1, h2⟩ hh

/-- Witness for the amended claim C4 at the concrete state stA. -/
theorem c4_collision_amended_witness :
    stA.maze_grid ≠ [] ∧
    (check_collision stA (3/2) (3/2) = true ↔
      ((∃ offset_x ∈ ([-PLAYER_RADIUS, 0, PLAYER_RADIUS] : List ℚ),
          ∃ offset_z ∈ ([-PLAYER_RADIUS, 0, PLAYER_RADIUS] : List ℚ),
            sampleHit stA (3/2 + offset_x) (3/2 + offset_z) = true) ∨
        (stA.floor_height_map ≠ [] ∧ stA.is_grounded = true ∧
          1/100 < get_floor_height_at stA (3/2) (3/2) -
            get_floor_height_at stA stA.player_pos.1 stA.player_pos.2.2))) :=
  ⟨by decide, c4_collision_amended stA (3/2) (3/2) (by decide)⟩

/-- Claim C5: with a maze loaded, the player grounded, a floor height map
present and no wall among the nine samples, a horizontal move is blocked
exactly when the target floor exceeds the current floor by more than 0.01;
steps of at most 0.01 and descents are not blocked by this rule. -/
theorem height_step_blocking (st : MiroState) (x z : ℚ) (hmz : st.maze_grid ≠ [])
    (hgr : st.is_grounded = true) (hfm : st.floor_height_map ≠ [])
    (hnw : wallHit st x z = false) :
    check_collision st x z = true ↔
      1/100 < get_floor_height_at st x z -
        get_floor_height_at st st.player_pos.1 st.player_pos.2.2 := by
  unfold check_collision
  rw [if_neg hmz, hnw, if_neg (by simp), if_pos ⟨hfm, hgr⟩]
  exact decide_eq_true_iff

/-- Witness for claim C5 at the concrete state stA (a 1.0 step up). -/
theorem height_step_blocking_witness :
    stA.maze_grid ≠ [] ∧ stA.is_grounded = true ∧ stA.floor_height_map ≠ [] ∧
    wallHit stA (3/2) (3/2) = false ∧
    (check_collision stA (3/2) (3/2) = true ↔
      1/100 < get_floor_height_at stA (3/2) (3/2) -
        get_floor_height_at stA stA.player_pos.1 stA.player_pos.2.2) :=
  ⟨by decide, rfl, by decide, by decide,
    height_step_blocking stA (3/2) (3/2) (by decide) rfl (by decide) (by decide)⟩


def isCellPos (W H : ℕ) (x y : ℤ) : Prop :=
  x % 2 = 1 ∧ y % 2 = 1 ∧ 0 < x ∧ x < (W : ℤ) - 1 ∧ 0 < y ∧ y < (H : ℤ) - 1

theorem setCell_zero_pres {g : Grid} {a b x y : ℤ} (h : g y x = 0) :
    setCell g a b 0 y x = 0 := by
  unfold setCell
  split
  · rfl
  · exact h

theorem setCell_ne_one {g : Grid} {a b x y : ℤ} (h : g y x ≠ 1) :
    setCell g a b 0 y x ≠ 1 := by
  unfold setCell
  split
  · exact zero_ne_one
  · exact h

theorem setCell_of_ne {g : Grid} {a b x y : ℤ} (v : ℕ) (h : ¬ (y = a ∧ x = b)) :
    setCell g a b v y x = g y x := by
  unfold setCell
  rw [if_neg h]

theorem getNbs_eq_nil {W H : ℕ} {g : Grid} {x y : ℤ} (h : getNbs W H g x y = []) :
    ∀ d ∈ nbOffsets, 0 < x + d.1 → x + d.1 < (W : ℤ) - 1 → 0 < y + d.2 →
      y + d.2 < (H : ℤ) - 1 → g (y + d.2) (x + d.1) ≠ 1 := by
  intro d hd h1 h2 h3 h4 hval
  have := List.filterMap_eq_nil_iff.mp h d hd
  rw [if_pos ⟨h1, h2, h3, h4, hval⟩] at this
  cases this

theorem getNbs_mem {W H : ℕ} {g : Grid} {x y n1 n2 : ℤ}
    (h : (n1, n2) ∈ getNbs W H g x y) :
    (∃ d ∈ nbOffsets, n1 = x + d.1 ∧ n2 = y + d.2) ∧
    0 < n1 ∧ n1 < (W : ℤ) - 1 ∧ 0 < n2 ∧ n2 < (H : ℤ) - 1 ∧ g n2 n1 = 1 := by
  unfold getNbs at h
  rw [List.mem_filterMap] at h
  obtain ⟨d, hd, hsome⟩ := h
  by_cases hc : 0 < x + d.1 ∧ x + d.1 < (W : ℤ) - 1 ∧ 0 < y + d.2 ∧
      y + d.2 < (H : ℤ) - 1 ∧ g (y + d.2) (x + d.1) = 1
  · rw [if_pos hc] at hsome
    obtain ⟨h1, h2⟩ := Prod.mk.injEq .. ▸ Option.some_injective _ hsome
    subst h1
    subst h2
    exact ⟨⟨d, hd, rfl, rfl⟩, hc.1, hc.2.1, hc.2.2.1, hc.2.2.2.1, hc.2.2.2.2⟩
  · rw [if_neg hc] at hsome
    cases hsome

def wallCount (W H : ℕ) (g : Grid) : ℕ :=
  (((Finset.range H) ×ˢ (Finset.range W)).filter
    (fun p => g (p.1 : ℤ) (p.2 : ℤ) = 1)).card

theorem wallCount_le (W H : ℕ) (g : Grid) : wallCount W H g ≤ H * W := by
  calc wallCount W H g ≤ ((Finset.range H) ×ˢ (Finset.range W)).card :=
        Finset.card_filter_le _ _
    _ = H * W := by rw [Finset.card_product, Finset.card_range, Finset.card_range]

theorem wallCount_setCell_le (W H : ℕ) (g : Grid) (y x : ℤ) :
    wallCount W H (setCell g y x 0) ≤ wallCount W H g := by
  apply Finset.card_le_card
  intro p hp
  rw [Finset.mem_filter] at hp ⊢
  refine ⟨hp.1, ?_⟩
  by_cases he : (p.1 : ℤ) = y ∧ (p.2 : ℤ) = x
  · exfalso
    have := hp.2
    unfold setCell at this
    rw [if_pos he] at this
    cases this
  · have := hp.2
    unfold setCell at this
    rw [if_neg he] at this
    exact this

theorem wallCount_setCell_lt (W H : ℕ) (g : Grid) (y x : ℤ)
    (hx0 : 0 ≤ x) (hxW : x < (W : ℤ)) (hy0 : 0 ≤ y) (hyH : y < (H : ℤ))
    (hv : g y x = 1) :
    wallCount W H (setCell g y x 0) < wallCount W H g := by
  apply Finset.card_lt_card
  constructor
  · intro p hp
    rw [Finset.mem_filter] at hp ⊢
    refine ⟨hp.1, ?_⟩
    by_cases he : (p.1 : ℤ) = y ∧ (p.2 : ℤ) = x
    · exfalso
      have := hp.2
      unfold setCell at this
      rw [if_pos he] at this
      cases this
    · have := hp.2
      unfold setCell at this
      rw [if_neg he] at this
      exact this
  · intro hsub
    have hmem : (y.toNat, x.toNat) ∈
        ((Finset.range H) ×ˢ (Finset.range W)).filter
          (fun p => g (p.1 : ℤ) (p.2 : ℤ) = 1) := by
      rw [Finset.mem_filter, Finset.mem_product, Finset.mem_range, Finset.mem_range]
      refine ⟨⟨?_, ?_⟩, ?_⟩
      · omega
      · omega
      · rw [Int.toNat_of_nonneg hy0, Int.toNat_of_nonneg hx0]
        exact hv
    have := hsub hmem
    rw [Finset.mem_filter] at this
    have h2 := this.2
    unfold setCell at h2
    rw [if_pos ⟨Int.toNat_of_nonneg hy0, Int.toNat_of_nonneg hx0⟩] at h2
    cases h2


def Inv (W H : ℕ) (g : Grid) (st : List (ℤ × ℤ)) : Prop :=
  (∀ c ∈ st, isCellPos W H c.1 c.2 ∧ g c.2 c.1 = 0) ∧
  (∀ x y : ℤ, isCellPos W H x y → g y x = 0 → (x, y) ∉ st →
    ∀ d ∈ nbOffsets, 0 < x + d.1 → x + d.1 < (W : ℤ) - 1 → 0 < y + d.2 →
      y + d.2 < (H : ℤ) - 1 → g (y + d.2) (x + d.1) ≠ 1) ∧
  (∀ x y : ℤ, g y x = 0 ∨ g y x = 1) ∧
  (∀ x y : ℤ, ¬ (0 < x ∧ x < (W : ℤ) - 1 ∧ 0 < y ∧ y < (H : ℤ) - 1) → g y x = 1)

theorem push_preserves (W H : ℕ) (g : Grid) (x y n1 n2 : ℤ) (rest : List (ℤ × ℤ))
    (hinv : Inv W H g ((x, y) :: rest))
    (hn_cell : isCellPos W H n1 n2)
    (hmid_par : (x + n1) / 2 % 2 = 0 ∨ (y + n2) / 2 % 2 = 0)
    (hmid_int : 0 < (x + n1) / 2 ∧ (x + n1) / 2 < (W : ℤ) - 1 ∧
      0 < (y + n2) / 2 ∧ (y + n2) / 2 < (H : ℤ) - 1) :
    Inv W H (setCell (setCell g ((y + n2) / 2) ((x + n1) / 2) 0) n2 n1 0)
      ((n1, n2) :: (x, y) :: rest) := by
  obtain ⟨hstack, hclosure, hvals, hborder⟩ := hinv
  refine ⟨?_, ?_, ?_, ?_⟩
  · intro c hc
    rcases List.mem_cons.mp hc with rfl | hc2
    · exact ⟨hn_cell, setCell_same _ _ _ _⟩
    · obtain ⟨h1, h2⟩ := hstack c hc2
      exact ⟨h1, setCell_zero_pres (setCell_zero_pres h2)⟩
  · intro a b hcell hcarved hnot d hd h1 h2 h3 h4
    have hab_old : g b a = 0 := by
      by_cases he2 : b = n2 ∧ a = n1
      · exact absurd (List.mem_cons_self _ _)
          (by rw [show ((a, b) : ℤ × ℤ) = (n1, n2) by rw [he2.1, he2.2]] at hnot; exact hnot)
      · rw [setCell_of_ne 0 he2] at hcarved
        by_cases he1 : b = (y + n2) / 2 ∧ a = (x + n1) / 2
        · exfalso
          obtain ⟨hp1, hp2, _⟩ := hcell
          rcases hmid_par with hp | hp
          · rw [he1.2] at hp1; omega
          · rw [he1.1] at hp2; omega
        · rw [setCell_of_ne 0 he1] at hcarved
          exact hcarved
    have hnot_old : (a, b) ∉ (x, y) :: rest := fun hm => hnot (List.mem_cons_of_mem _ hm)
    have hold := hclosure a b hcell hab_old hnot_old d hd h1 h2 h3 h4
    exact setCell_ne_one (setCell_ne_one hold)
  · intro a b
    unfold setCell
    split
    · left; rfl
    · split
      · left; rfl
      · exact hvals a b
  · intro a b hnb
    have hne2 : ¬ (b = n2 ∧ a = n1) := by
      intro hb
      obtain ⟨_, _, c1, c2, c3, c4⟩ := hn_cell
      exact hnb (by rw [hb.1, hb.2]; exact ⟨c1, c2, c3, c4⟩)
    have hne1 : ¬ (b = (y + n2) / 2 ∧ a = (x + n1) / 2) := by
      intro hb
      apply hnb
      rw [hb.1, hb.2]
      exact ⟨hmid_int.1, hmid_int.2.1, hmid_int.2.2.1, hmid_int.2.2.2⟩
    rw [setCell_of_ne 0 hne2, setCell_of_ne 0 hne1]
    exact hborder a b hnb

theorem dfsLoop_zero (W H : ℕ) (s : ℕ → ℕ) (g : Grid) (st : List (ℤ × ℤ)) (i : ℕ) :
    dfsLoop W H s 0 g st i = g := rfl

theorem dfsLoop_nil (W H : ℕ) (s : ℕ → ℕ) (fuel : ℕ) (g : Grid) (i : ℕ) :
    dfsLoop W H s (fuel + 1) g [] i = g := rfl

theorem dfsLoop_cons_pop (W H : ℕ) (s : ℕ → ℕ) (fuel : ℕ) (g : Grid) (x y : ℤ)
    (rest : List (ℤ × ℤ)) (i : ℕ) (h : getNbs W H g x y = []) :
    dfsLoop W H s (fuel + 1) g ((x, y) :: rest) i = dfsLoop W H s fuel g rest i := by
  rw [dfsLoop]
  rw [dif_pos h]

theorem dfsLoop_cons_push (W H : ℕ) (s : ℕ → ℕ) (fuel : ℕ) (g : Grid) (x y : ℤ)
    (rest : List (ℤ × ℤ)) (i : ℕ) (h : ¬ getNbs W H g x y = []) :
    dfsLoop W H s (fuel + 1) g ((x, y) :: rest) i =
      (fun n : ℤ × ℤ => dfsLoop W H s fuel
        (setCell (setCell g ((y + n.2) / 2) ((x + n.1) / 2) 0) n.2 n.1 0)
        (n :: (x, y) :: rest) (i + 1))
        ((getNbs W H g x y).get
          ⟨s i % (getNbs W H g x y).length, Nat.mod_lt _ (List.length_pos.mpr h)⟩) := by
  rw [dfsLoop]
  rw [dif_neg h]

theorem dfsLoop_spec (W H : ℕ) (s : ℕ → ℕ) :
    ∀ (fuel : ℕ) (g : Grid) (st : List (ℤ × ℤ)) (i : ℕ),
      2 * wallCount W H g + st.length ≤ fuel →
      Inv W H g st →
      Inv W H (dfsLoop W H s fuel g st i) [] ∧
      ∀ x y : ℤ, g y x = 0 → dfsLoop W H s fuel g st i y x = 0 := by
  intro fuel
  induction fuel with
  | zero =>
    intro g st i hm hinv
    have hst : st = [] := List.eq_nil_of_length_eq_zero (by omega)
    subst hst
    exact ⟨hinv, fun _ _ h => h⟩
  | succ fuel ih =>
    intro g st i hm hinv
    match st with
    | [] =>
      rw [dfsLoop_nil]
      exact ⟨hinv, fun _ _ h => h⟩
    | (x, y) :: rest =>
      by_cases hnbs : getNbs W H g x y = []
      · rw [dfsLoop_cons_pop W H s fuel g x y rest i hnbs]
        obtain ⟨hstack, hclosure, hvals, hborder⟩ := hinv
        apply ih
        · simp only [List.length_cons] at hm
          omega
        · refine ⟨fun c hc => hstack c (List.mem_cons_of_mem _ hc), ?_, hvals, hborder⟩
          intro a b hcell hcarved hnot d hd h1 h2 h3 h4
          by_cases heq : ((a, b) : ℤ × ℤ) = (x, y)
          · have hax : a = x := congrArg Prod.fst heq
            have hby : b = y := congrArg Prod.snd heq
            subst hax
            subst hby
            exact getNbs_eq_nil hnbs d hd h1 h2 h3 h4
          · refine hclosure a b hcell hcarved ?_ d hd h1 h2 h3 h4
            intro hmem
            rcases List.mem_cons.mp hmem with h | h
            · exact heq h
            · exact hnot h
      · rw [dfsLoop_cons_push W H s fuel g x y rest i hnbs]
        have key : ∀ n ∈ getNbs W H g x y,
            Inv W H (setCell (setCell g ((y + n.2) / 2) ((x + n.1) / 2) 0) n.2 n.1 0)
                (n :: (x, y) :: rest) ∧
            2 * wallCount W H
                (setCell (setCell g ((y + n.2) / 2) ((x + n.1) / 2) 0) n.2 n.1 0) +
              (n :: (x, y) :: rest).length ≤ fuel := by
          intro n hn
          obtain ⟨n1, n2⟩ := n
          obtain ⟨⟨d, hd, hdx, hdy⟩, hb1, hb2, hb3, hb4, hval⟩ := getNbs_mem hn
          obtain ⟨hxcell, _⟩ := hinv.1 (x, y) (List.mem_cons_self _ _)
          obtain ⟨hpx, hpy, hxi1, hxi2, hyi1, hyi2⟩ := hxcell
          have hdcases : d = ((0 : ℤ), (-2 : ℤ)) ∨ d = (0, 2) ∨ d = (-2, 0) ∨
              d = (2, 0) := by
            simpa [nbOffsets] using hd
          have hfacts : n1 % 2 = 1 ∧ n2 % 2 = 1 ∧
              ((x + n1) / 2 % 2 = 0 ∨ (y + n2) / 2 % 2 = 0) ∧
              ¬ (n2 = (y + n2) / 2 ∧ n1 = (x + n1) / 2) ∧
              0 < (x + n1) / 2 ∧ (x + n1) / 2 < (W : ℤ) - 1 ∧
              0 < (y + n2) / 2 ∧ (y + n2) / 2 < (H : ℤ) - 1 := by
            rcases hdcases with rfl | rfl | rfl | rfl <;>
              (simp only at hdx hdy; omega)
          obtain ⟨hq1, hq2, hmidpar, hmne, hmi1, hmi2, hmi3, hmi4⟩ := hfacts
          have hncell : isCellPos W H n1 n2 := ⟨hq1, hq2, hb1, hb2, hb3, hb4⟩
          refine ⟨push_preserves W H g x y n1 n2 rest hinv hncell hmidpar
            ⟨hmi1, hmi2, hmi3, hmi4⟩, ?_⟩
          have hval1 : setCell g ((y + n2) / 2) ((x + n1) / 2) 0 n2 n1 = 1 := by
            rw [setCell_of_ne 0 hmne]
            exact hval
          have hlt1 : wallCount W H
              (setCell (setCell g ((y + n2) / 2) ((x + n1) / 2) 0) n2 n1 0) <
              wallCount W H (setCell g ((y + n2) / 2) ((x + n1) / 2) 0) :=
            wallCount_setCell_lt W H _ n2 n1 (by omega) (by omega) (by omega)
              (by omega) hval1
          have hlt : wallCount W H
              (setCell (setCell g ((y + n2) / 2) ((x + n1) / 2) 0) n2 n1 0) <
              wallCount W H g :=
            lt_of_lt_of_le hlt1 (wallCount_setCell_le W H g _ _)
          simp only [List.length_cons] at hm ⊢
          omega
        obtain ⟨hinv2, hm2⟩ := key _ (List.get_mem _ _ _)
        have hres := ih _ _ (i + 1) hm2 hinv2
        exact ⟨hres.1, fun a b hab =>
          hres.2 a b (setCell_zero_pres (setCell_zero_pres hab))⟩


theorem coverage (W H : ℕ) (g : Grid) (sx sy : ℤ)
    (hcl : Inv W H g []) (hs : g sy sx = 0) (hsc : isCellPos W H sx sy) :
    ∀ x y : ℤ, isCellPos W H x y → g y x = 0 := by
  obtain ⟨_, hclosure, hvals, _⟩ := hcl
  obtain ⟨hsx1, hsy1, hsx2, hsx3, hsy2, hsy3⟩ := hsc
  have main : ∀ dist : ℕ, ∀ x y : ℤ, isCellPos W H x y →
      (x - sx).natAbs + (y - sy).natAbs = dist → g y x = 0 := by
    intro dist
    induction dist using Nat.strong_induction_on with
    | _ dist ih =>
      intro x y hc hd
      obtain ⟨hx1, hy1, hx2, hx3, hy2, hy3⟩ := hc
      by_cases hxx : x = sx
      · by_cases hyy : y = sy
        · rw [hxx, hyy]
          exact hs
        · rcases lt_or_gt_of_ne hyy with hlt | hgt
          · -- y < sy: step to y + 2, then neighbor offset (0, -2)
            have hc2 : isCellPos W H x (y + 2) :=
              ⟨hx1, by omega, hx2, hx3, by omega, by omega⟩
            have hcar2 : g (y + 2) x = 0 :=
              ih ((x - sx).natAbs + (y + 2 - sy).natAbs) (by omega) x (y + 2) hc2 rfl
            have hnb := hclosure x (y + 2) hc2 hcar2 (List.not_mem_nil _)
              ((0 : ℤ), (-2 : ℤ)) (by simp [nbOffsets]) (by omega) (by omega)
              (by omega) (by omega)
            have : g (y + 2 + -2) (x + 0) ≠ 1 := hnb
            rcases hvals (x + 0) (y + 2 + -2) with h0 | h1
            · have hxy : y + 2 + -2 = y := by omega
              have hx0 : x + 0 = x := by omega
              rw [hxy, hx0] at h0
              exact h0
            · exact absurd h1 this
          · have hc2 : isCellPos W H x (y - 2) :=
              ⟨hx1, by omega, hx2, hx3, by omega, by omega⟩
            have hcar2 : g (y - 2) x = 0 :=
              ih ((x - sx).natAbs + (y - 2 - sy).natAbs) (by omega) x (y - 2) hc2 rfl
            have hnb := hclosure x (y - 2) hc2 hcar2 (List.not_mem_nil _)
              ((0 : ℤ), (2 : ℤ)) (by simp [nbOffsets]) (by omega) (by omega)
              (by omega) (by omega)
            have : g (y - 2 + 2) (x + 0) ≠ 1 := hnb
            rcases hvals (x + 0) (y - 2 + 2) with h0 | h1
            · have hxy : y - 2 + 2 = y := by omega
              have hx0 : x + 0 = x := by omega
              rw [hxy, hx0] at h0
              exact h0
            · exact absurd h1 this
      · rcases lt_or_gt_of_ne hxx with hlt | hgt
        · have hc2 : isCellPos W H (x + 2) y :=
            ⟨by omega, hy1, by omega, by omega, hy2, hy3⟩
          have hcar2 : g y (x + 2) = 0 :=
            ih ((x + 2 - sx).natAbs + (y - sy).natAbs) (by omega) (x + 2) y hc2 rfl
          have hnb := hclosure (x + 2) y hc2 hcar2 (List.not_mem_nil _)
            ((-2 : ℤ), (0 : ℤ)) (by simp [nbOffsets]) (by omega) (by omega)
            (by omega) (by omega)
          have : g (y + 0) (x + 2 + -2) ≠ 1 := hnb
          rcases hvals (x + 2 + -2) (y + 0) with h0 | h1
          · have hxy : x + 2 + -2 = x := by omega
            have hy0 : y + 0 = y := by omega
            rw [hxy, hy0] at h0
            exact h0
          · exact absurd h1 this
        · have hc2 : isCellPos W H (x - 2) y :=
            ⟨by omega, hy1, by omega, by omega, hy2, hy3⟩
          have hcar2 : g y (x - 2) = 0 :=
            ih ((x - 2 - sx).natAbs + (y - sy).natAbs) (by omega) (x - 2) y hc2 rfl
          have hnb := hclosure (x - 2) y hc2 hcar2 (List.not_mem_nil _)
            ((2 : ℤ), (0 : ℤ)) (by simp [nbOffsets]) (by omega) (by omega)
            (by omega) (by omega)
          have : g (y + 0) (x - 2 + 2) ≠ 1 := hnb
          rcases hvals (x - 2 + 2) (y + 0) with h0 | h1
          · have hxy : x - 2 + 2 = x := by omega
            have hy0 : y + 0 = y := by omega
            rw [hxy, hy0] at h0
            exact h0
          · exact absurd h1 this
  intro x y hc
  exact main _ x y hc rfl

theorem exitScan_spec (W H : ℕ) (g : Grid) :
    ∀ n : ℕ, (∃ j : ℕ, 1 ≤ j ∧ j ≤ n ∧ g ((H : ℤ) - 2) (j : ℤ) = 0) →
      ∃ e : ℕ, 1 ≤ e ∧ e ≤ n ∧ g ((H : ℤ) - 2) (e : ℤ) = 0 ∧
        exitScan W H g n = setCell g ((H : ℤ) - 1) (e : ℤ) 0 := by
  intro n
  induction n with
  | zero =>
    rintro ⟨j, hj1, hj0, _⟩
    omega
  | succ n ih =>
    rintro ⟨j, hj1, hjn, hj0⟩
    by_cases hc : g ((H : ℤ) - 2) ((n : ℤ) + 1) = 0
    · refine ⟨n + 1, by omega, le_refl _, by push_cast; exact hc, ?_⟩
      rw [exitScan]
      rw [if_pos hc]
      norm_cast
    · have hjn2 : j ≤ n := by
        by_contra hgt
        have hje : j = n + 1 := by omega
        subst hje
        push_cast at hj0
        exact hc hj0
      obtain ⟨e, he1, hen, he0, heq⟩ := ih ⟨j, hj1, hjn2, hj0⟩
      refine ⟨e, he1, by omega, he0, ?_⟩
      rw [exitScan]
      rw [if_neg hc]
      exact heq


/-- Claim C3: after Maze.generate() completes, for any random stream and any
requested dimensions at least 5, every border cell is a wall except exactly
one entrance at (row 0, col 1) and exactly one exit cell e on the bottom
border whose neighbour above (an interior cell of row height-2) is a
passage. -/
theorem maze_entry_exit_borders (w h : ℕ) (wt wh : ℚ) (s : ℕ → ℕ)
    (hw : 5 ≤ w) (hh : 5 ≤ h) :
    ∃ e : ℤ,
      1 ≤ e ∧ e ≤ (((Maze.init w h wt wh).generate s).width : ℤ) - 2 ∧
      (∀ x : ℤ, 0 ≤ x → x < (((Maze.init w h wt wh).generate s).width : ℤ) →
        ((Maze.init w h wt wh).generate s).grid 0 x = if x = 1 then 0 else 1) ∧
      (∀ y : ℤ, 0 ≤ y → y < (((Maze.init w h wt wh).generate s).height : ℤ) →
        ((Maze.init w h wt wh).generate s).grid y 0 = 1 ∧
        ((Maze.init w h wt wh).generate s).grid y
          ((((Maze.init w h wt wh).generate s).width : ℤ) - 1) = 1) ∧
      ((Maze.init w h wt wh).generate s).grid
        ((((Maze.init w h wt wh).generate s).height : ℤ) - 1) e = 0 ∧
      ((Maze.init w h wt wh).generate s).grid
        ((((Maze.init w h wt wh).generate s).height : ℤ) - 2) e = 0 ∧
      (∀ x : ℤ, 0 ≤ x → x < (((Maze.init w h wt wh).generate s).width : ℤ) → x ≠ e →
        ((Maze.init w h wt wh).generate s).grid
          ((((Maze.init w h wt wh).generate s).height : ℤ) - 1) x = 1) := by
  set W := ((Maze.init w h wt wh).generate s).width with hWs
  set H := ((Maze.init w h wt wh).generate s).height with hHs
  have hWdef : W = (if w % 2 ≠ 0 then w else w + 1) := hWs
  have hHdef : H = (if h % 2 ≠ 0 then h else h + 1) := hHs
  have hW5 : 5 ≤ W := by rw [hWdef]; split <;> omega
  have hWodd : W % 2 = 1 := by rw [hWdef]; split <;> omega
  have hH5 : 5 ≤ H := by rw [hHdef]; split <;> omega
  have hHodd : H % 2 = 1 := by rw [hHdef]; split <;> omega
  set sx : ℤ := (((s 0 % ((W - 3) / 2 + 1)) * 2 + 1 : ℕ) : ℤ) with hsx
  set sy : ℤ := (((s 1 % ((H - 3) / 2 + 1)) * 2 + 1 : ℕ) : ℤ) with hsy
  set g0 : Grid := setCell (fun _ _ => 1) sy sx 0 with hg0
  set g1 : Grid := dfsLoop W H s (2 * W * H + 1) g0 [(sx, sy)] 2 with hg1
  set g2 : Grid := setCell g1 0 1 0 with hg2
  have hGdef : ((Maze.init w h wt wh).generate s).grid = exitScan W H g2 (W - 2) := rfl
  have hk0 : s 0 % ((W - 3) / 2 + 1) < (W - 3) / 2 + 1 := Nat.mod_lt _ (by omega)
  have hk1 : s 1 % ((H - 3) / 2 + 1) < (H - 3) / 2 + 1 := Nat.mod_lt _ (by omega)
  have hsxb : 1 ≤ sx ∧ sx ≤ (W : ℤ) - 2 ∧ sx % 2 = 1 := by
    rw [hsx]
    omega
  have hsyb : 1 ≤ sy ∧ sy ≤ (H : ℤ) - 2 ∧ sy % 2 = 1 := by
    rw [hsy]
    omega
  obtain ⟨hsx1, hsx2, hsx3⟩ := hsxb
  obtain ⟨hsy1, hsy2, hsy3⟩ := hsyb
  have hscell : isCellPos W H sx sy := ⟨hsx3, hsy3, by omega, by omega, by omega, by omega⟩
  have hInv0 : Inv W H g0 [(sx, sy)] := by
    refine ⟨?_, ?_, ?_, ?_⟩
    · intro c hc
      rw [List.mem_singleton] at hc
      subst hc
      exact ⟨hscell, by rw [hg0]; exact setCell_same _ _ _ _⟩
    · intro a b hcell hcar hnot
      exfalso
      by_cases he : b = sy ∧ a = sx
      · refine hnot ?_
        rw [List.mem_singleton, Prod.mk.injEq]
        exact ⟨he.2, he.1⟩
      · rw [hg0, setCell_of_ne 0 he] at hcar
        simp at hcar
    · intro a b
      rw [hg0]
      unfold setCell
      split
      · exact Or.inl rfl
      · exact Or.inr rfl
    · intro a b hnb
      have hne : ¬ (b = sy ∧ a = sx) := by
        intro he
        apply hnb
        rw [he.1, he.2]
        exact ⟨by omega, by omega, by omega, by omega⟩
      rw [hg0, setCell_of_ne 0 hne]
  have hMC : H * W = W * H := Nat.mul_comm H W
  have hm0 : 2 * wallCount W H g0 + ([((sx : ℤ), (sy : ℤ))] : List (ℤ × ℤ)).length ≤
      2 * W * H + 1 := by
    have hwc := wallCount_le W H g0
    have hassoc : 2 * W * H = 2 * (W * H) := by ring
    simp only [List.length_cons, List.length_nil]
    omega
  obtain ⟨hInv1, hmono⟩ := dfsLoop_spec W H s (2 * W * H + 1) g0 [(sx, sy)] 2 hm0 hInv0
  rw [← hg1] at hInv1 hmono
  have hs0 : g1 sy sx = 0 := hmono sx sy (by rw [hg0]; exact setCell_same _ _ _ _)
  have hcov := coverage W H g1 sx sy hInv1 hs0 hscell
  obtain ⟨_, _, _, hborder1⟩ := hInv1
  have hcell1 : isCellPos W H 1 ((H : ℤ) - 2) :=
    ⟨by omega, by omega, by omega, by omega, by omega, by omega⟩
  have hcar1 : g1 ((H : ℤ) - 2) 1 = 0 := hcov 1 _ hcell1
  have hg2r : g2 ((H : ℤ) - 2) ((1 : ℕ) : ℤ) = 0 := by
    rw [hg2, setCell_of_ne 0 (fun he => absurd he.1 (by omega))]
    exact_mod_cast hcar1
  obtain ⟨e, he1, heW2, he0, heq⟩ :=
    exitScan_spec W H g2 (W - 2) ⟨1, le_refl 1, by omega, hg2r⟩
  rw [hGdef, heq]
  refine ⟨(e : ℤ), by omega, by omega, ?_, ?_, ?_, ?_, ?_⟩
  · intro x hx0 hxW
    rw [setCell_of_ne 0 (fun he => absurd he.1 (by omega))]
    rw [hg2]
    by_cases hx1 : x = 1
    · subst hx1
      rw [if_pos rfl]
      exact setCell_same _ _ _ _
    · rw [setCell_of_ne 0 (fun he => hx1 he.2), if_neg hx1]
      refine hborder1 x 0 ?_
      intro hint
      omega
  · intro y hy0 hyH
    constructor
    · rw [setCell_of_ne 0 (fun he => absurd he.2 (by omega))]
      rw [hg2, setCell_of_ne 0 (fun he => absurd he.2 (by omega))]
      refine hborder1 0 y ?_
      intro hint
      omega
    · rw [setCell_of_ne 0 (fun he => absurd he.2 (by omega))]
      rw [hg2, setCell_of_ne 0 (fun he => absurd he.2 (by omega))]
      refine hborder1 ((W : ℤ) - 1) y ?_
      intro hint
      omega
  · exact setCell_same _ _ _ _
  · rw [setCell_of_ne 0 (fun he => absurd he.1 (by omega))]
    exact he0
  · intro x hx0 hxW hxe
    rw [setCell_of_ne 0 (fun he => hxe he.2)]
    rw [hg2, setCell_of_ne 0 (fun he => absurd he.1 (by omega))]
    refine hborder1 x ((H : ℤ) - 1) ?_
    intro hint
    omega



/-- Witness for claim C3 at the concrete 5x5 maze with the all-zero stream. -/
theorem maze_entry_exit_borders_witness :
    (5 ≤ 5) ∧
    (∃ e : ℤ,
      1 ≤ e ∧ e ≤ (((Maze.init 5 5 1 1).generate (fun _ => 0)).width : ℤ) - 2 ∧
      (∀ x : ℤ, 0 ≤ x → x < (((Maze.init 5 5 1 1).generate (fun _ => 0)).width : ℤ) →
        ((Maze.init 5 5 1 1).generate (fun _ => 0)).grid 0 x = if x = 1 then 0 else 1) ∧
      (∀ y : ℤ, 0 ≤ y → y < (((Maze.init 5 5 1 1).generate (fun _ => 0)).height : ℤ) →
        ((Maze.init 5 5 1 1).generate (fun _ => 0)).grid y 0 = 1 ∧
        ((Maze.init 5 5 1 1).generate (fun _ => 0)).grid y
          ((((Maze.init 5 5 1 1).generate (fun _ => 0)).width : ℤ) - 1) = 1) ∧
      ((Maze.init 5 5 1 1).generate (fun _ => 0)).grid
        ((((Maze.init 5 5 1 1).generate (fun _ => 0)).height : ℤ) - 1) e = 0 ∧
      ((Maze.init 5 5 1 1).generate (fun _ => 0)).grid
        ((((Maze.init 5 5 1 1).generate (fun _ => 0)).height : ℤ) - 2) e = 0 ∧
      (∀ x : ℤ, 0 ≤ x → x < (((Maze.init 5 5 1 1).generate (fun _ => 0)).width : ℤ) → x ≠ e →
        ((Maze.init 5 5 1 1).generate (fun _ => 0)).grid
          ((((Maze.init 5 5 1 1).generate (fun _ => 0)).height : ℤ) - 1) x = 1)) :=
  ⟨by norm_num, maze_entry_exit_borders 5 5 1 1 (fun _ => 0) (by norm_num) (by norm_num)⟩

end ModelingSW
